import Mathlib

/-
Verification of the scheduling decision engine of the aws-instance-scheduler
repository. The definitions below are a shallow embedding of
source/app/instance_scheduler/schedulers/instance_scheduler.py and
source/app/instance_scheduler/configuration/scheduler_config.py.
External collaborators that are not part of the sources under study
(the schedule evaluator, the instance state store, the service driver and
the STS client) are modelled from the specification as opaque data or
response functions, as noted on each definition.
-/

namespace Scheduler

/-- Desired-state values for instances. Modelled from the spec: these are the
STATE constants of the schedule module (running, stopped, retain_running,
stopped_for_resize, any, unknown); the engine uses them only through equality
tests, so an inductive type of distinct values is a faithful embedding. -/
inductive InstState where
  | running
  | stopped
  | retainRunning
  | stoppedForResize
  | anyState
  | unknown
deriving DecidableEq

/-- Maintenance window attached to an instance. Modelled from the spec: the
window evaluator is external to the sources under study; evalState and
evalType record the result of get_desired_state for the carrying instance at
the current UTC instant of the cycle. -/
structure MaintenanceWindow where
  name : String
  evalState : InstState
  evalType : Option String
deriving DecidableEq

/-- A schedulable instance record as produced by the service driver, with the
fields the engine reads (instance_scheduler.py). -/
structure Instance where
  id : String
  instancetype : String
  allow_resize : Bool
  is_running : Bool
  is_terminated : Bool
  schedule_name : String
  maintenance_window : Option MaintenanceWindow
  resized : Bool
deriving DecidableEq

/-- Schedule as consumed by the engine. Modelled from the spec for the parts
not under src: the flag fields and an opaque evaluator get_desired_state
returning the desired state and optional desired machine type (the engine
discards the third component of the source triple, the period name). -/
structure Schedule where
  name : String
  enforced : Bool
  retain_running : Bool
  stop_new_instances : Bool
  use_maintenance_window : Bool
  get_desired_state : Instance → InstState × Option String

/-- Scheduler configuration fields read by the engine
(scheduler_config.py and instance_scheduler.py). The field namespace_
embeds the source attribute namespace, which is a reserved word in Lean. -/
structure SchedulerConfig where
  schedules : List (String × Schedule)
  regions : List String
  remote_account_ids : List String
  schedule_lambda_account : Bool
  aws_partition : String
  namespace_ : String
  scheduler_role_name : String

/-- SchedulerConfig.get_schedule: dictionary lookup returning none for a
missing name (scheduler_config.py, get_schedule). -/
def SchedulerConfig.get_schedule (cfg : SchedulerConfig) (n : String) : Option Schedule :=
  cfg.schedules.lookup n

/-- Service strategy interface. Modelled from the spec: the driver calls are
represented by response functions; resize_ok tells whether resize_instance
succeeds (true) or raises (false); start_results and stop_results are the
lazy sequences of (instance id, resulting state) pairs yielded by
start_instances and stop_instances for a given batch. -/
structure ServiceDriver where
  allow_resize : Bool
  get_schedulable_instances : String → String → List Instance
  resize_ok : Instance → String → Bool
  start_results : List Instance → List (String × InstState)
  stop_results : List Instance → List (String × InstState)

/-- In-memory instance state table for one (service, account, region) scope.
Modelled from the spec: the InstanceStates store of section 4.3 is a keyed
persistence of desired-state records; it is embedded as an association list
from instance id to state. -/
abbrev StateTable := List (String × InstState)

/-- Point lookup in the state table. Modelled from the spec: returns the
record for the given instance id when one exists. -/
def tableLookup : StateTable → String → Option InstState
  | [], _ => none
  | kv :: rest, iid => if kv.1 = iid then some kv.2 else tableLookup rest iid

/-- InstanceStates.get_instance_state. Modelled from the spec: returns the
stored state, or unknown when no record exists. -/
def getInstanceState (t : StateTable) (iid : String) : InstState :=
  match tableLookup t iid with
  | some s => s
  | none => InstState.unknown

/-- InstanceStates.set_instance_state. Modelled from the spec: a point update
that replaces the record for the id when present and inserts one otherwise. -/
def setInstanceState (t : StateTable) (iid : String) (s : InstState) : StateTable :=
  if (tableLookup t iid).isSome then
    t.map (fun kv => if kv.1 = iid then (iid, s) else kv)
  else t ++ [(iid, s)]

/-- InstanceStates.delete_instance_state. Modelled from the spec: removes any
record keyed by the id. -/
def deleteInstanceState (t : StateTable) (iid : String) : StateTable :=
  t.filter (fun kv => kv.1 ≠ iid)

/-- InstanceStates.cleanup. Modelled from the spec: removes every record whose
id is not in the observed id list. -/
def cleanupStates (t : StateTable) (observed : List String) : StateTable :=
  t.filter (fun kv => observed.contains kv.1)

/-- Per-region mutable state of the engine: the loaded state table and the
three batches _scheduler_start_list, _scheduler_stop_list and
_schedule_resize_list (instance_scheduler.py, _process_account). -/
structure RegionState where
  store : StateTable
  start_list : List Instance
  stop_list : List Instance
  resize_list : List (Instance × String)
deriving DecidableEq

/-- need_and_can_resize of _process_new_desired_state: a resize is warranted
when a desired type is present, differs from the current instance type, and
the instance allows resizing (instance_scheduler.py lines 613 to 624). -/
def need_and_can_resize (inst : Instance) (desired_type : Option String) : Bool :=
  match desired_type with
  | none => false
  | some t => if inst.instancetype ≠ t then inst.allow_resize else false

/-- _process_new_desired_state (instance_scheduler.py lines 603 to 737). The
inner resize_instance call is embedded through svc.resize_ok: on success the
pair is appended to the resize list, on failure the exception is swallowed
and only the error is logged; in both cases control falls through to the
unconditional append to the start list, exactly as in the source. -/
def process_new_desired_state (svc : ServiceDriver) (rs : RegionState) (inst : Instance)
    (desired_state : InstState) (desired_type : Option String)
    (last_desired_state : InstState) (retain_running : Bool) : RegionState :=
  if last_desired_state = InstState.retainRunning then
    if desired_state = InstState.running then rs
    else if desired_state = InstState.stopped then
      { rs with store := setInstanceState rs.store inst.id InstState.stopped }
    else
      { rs with store := setInstanceState rs.store inst.id desired_state }
  else
    if desired_state = InstState.running then
      if inst.is_running = false then
        if need_and_can_resize inst desired_type = true then
          if svc.resize_ok inst (desired_type.getD inst.instancetype) = true then
            { rs with
              resize_list := rs.resize_list ++ [(inst, desired_type.getD inst.instancetype)]
              start_list := rs.start_list ++ [inst] }
          else { rs with start_list := rs.start_list ++ [inst] }
        else { rs with start_list := rs.start_list ++ [inst] }
      else
        if last_desired_state = InstState.stopped then
          if retain_running = true then
            { rs with store := setInstanceState rs.store inst.id InstState.retainRunning }
          else
            { rs with store := setInstanceState rs.store inst.id InstState.running }
        else rs
    else if desired_state = InstState.stopped ∨ desired_state = InstState.stoppedForResize then
      if inst.is_running = true then
        if desired_state = InstState.stoppedForResize then
          { rs with stop_list := rs.stop_list ++ [{ inst with resized := true }] }
        else
          { rs with stop_list := rs.stop_list ++ [inst] }
      else
        { rs with store := setInstanceState rs.store inst.id InstState.stopped }
    else
      { rs with store := setInstanceState rs.store inst.id desired_state }

/-- get_desired_state_and_type (instance_scheduler.py lines 323 to 352): when
the instance carries a maintenance window and the schedule opts in, the
window is evaluated first and its result is returned when it is running;
otherwise the schedule evaluator decides. -/
def get_desired_state_and_type (sched : Schedule) (inst : Instance) :
    InstState × Option String :=
  match inst.maintenance_window with
  | some mw =>
    if sched.use_maintenance_window = true then
      if mw.evalState = InstState.running then (mw.evalState, mw.evalType)
      else sched.get_desired_state inst
    else sched.get_desired_state inst
  | none => sched.get_desired_state inst

/-- Body of the per-instance loop of _process_account (instance_scheduler.py
lines 376 to 509): terminated instances have their record deleted, unknown
schedules are skipped, and otherwise the per-instance state machine routes to
_process_new_desired_state. -/
def process_instance (svc : ServiceDriver) (cfg : SchedulerConfig)
    (rs : RegionState) (inst : Instance) : RegionState :=
  if inst.is_terminated = true then
    { rs with store := deleteInstanceState rs.store inst.id }
  else
    match cfg.get_schedule inst.schedule_name with
    | none => rs
    | some sched =>
      if getInstanceState rs.store inst.id = InstState.unknown then
        if inst.is_running = true ∧
            (get_desired_state_and_type sched inst).1 = InstState.stopped then
          if sched.stop_new_instances = false then
            { rs with store := setInstanceState rs.store inst.id InstState.stopped }
          else
            process_new_desired_state svc rs inst (get_desired_state_and_type sched inst).1
              (get_desired_state_and_type sched inst).2
              (getInstanceState rs.store inst.id) sched.retain_running
        else
          process_new_desired_state svc rs inst (get_desired_state_and_type sched inst).1
            (get_desired_state_and_type sched inst).2
            (getInstanceState rs.store inst.id) sched.retain_running
      else if sched.enforced = true then
        if (inst.is_running = true ∧
              (get_desired_state_and_type sched inst).1 = InstState.stopped) ∨
            (inst.is_running = false ∧
              (get_desired_state_and_type sched inst).1 = InstState.running) then
          process_new_desired_state svc rs inst (get_desired_state_and_type sched inst).1
            (get_desired_state_and_type sched inst).2
            (getInstanceState rs.store inst.id) sched.retain_running
        else rs
      else if ¬(getInstanceState rs.store inst.id = (get_desired_state_and_type sched inst).1) then
        process_new_desired_state svc rs inst (get_desired_state_and_type sched inst).1
          (get_desired_state_and_type sched inst).2
          (getInstanceState rs.store inst.id) sched.retain_running
      else rs

/-- A resized-instance output entry of _process_account: the instance id with
the schedule name, old type and new type (instance_scheduler.py lines 533 to
543). -/
structure ResizeEntry where
  id : String
  schedule : String
  old : String
  new : String
deriving DecidableEq

/-- Output of one region pass: the started, stopped and resized entries that
_process_account records for the region (id and schedule name; for resizes
also the old and new type). -/
structure RegionOut where
  started : List (String × String)
  stopped : List (String × String)
  resized : List ResizeEntry
deriving DecidableEq

/-- _start_and_stop_instances (instance_scheduler.py lines 740 to 787): for a
non-empty start list the driver is called and each returned (id, state) pair
is persisted; symmetrically for the stop list. -/
def start_and_stop_instances (svc : ServiceDriver) (rs : RegionState) : StateTable :=
  let t1 :=
    if rs.start_list ≠ [] then
      (svc.start_results rs.start_list).foldl
        (fun t p => setInstanceState t p.1 p.2) rs.store
    else rs.store
  if rs.stop_list ≠ [] then
    (svc.stop_results rs.stop_list).foldl
      (fun t p => setInstanceState t p.1 p.2) t1
  else t1

/-- One region pass of _process_account (instance_scheduler.py lines 368 to
545): clear the batches, process each instance, commit the batches, clean up
and save the state table, and build the per-region output entries. When the
driver yields no instance the state table is never loaded, so the backing
table is left untouched and the region contributes no output. -/
def process_region (svc : ServiceDriver) (cfg : SchedulerConfig)
    (table0 : StateTable) (instances : List Instance) : StateTable × RegionOut :=
  if instances = [] then
    (table0, { started := [], stopped := [], resized := [] })
  else
    let rs := instances.foldl (process_instance svc cfg)
      { store := table0, start_list := [], stop_list := [], resize_list := [] }
    let t1 := start_and_stop_instances svc rs
    let t2 := cleanupStates t1 (instances.map (fun i => i.id))
    (t2,
      { started := rs.start_list.map (fun i => (i.id, i.schedule_name)),
        stopped := rs.stop_list.map (fun i => (i.id, i.schedule_name)),
        resized := rs.resize_list.map (fun p =>
          { id := p.1.id, schedule := p.1.schedule_name, old := p.1.instancetype, new := p.2 }) })

/-- Result of _process_account for one account: region entries are added only
when the corresponding list is non-empty, and the resized key is present only
when the service allows resizing (instance_scheduler.py lines 523 to 555). -/
structure AccountResult where
  started : List (String × List (String × String))
  stopped : List (String × List (String × String))
  resized : Option (List (String × List ResizeEntry))
deriving DecidableEq

/-- An account yielded by the _accounts generator: its name and the assumed
role, none for the lambda account. -/
structure AccountRef where
  name : String
  role : Option String
deriving DecidableEq

/-- Accumulator for the region loop of _process_account. -/
structure AccBuild where
  started : List (String × List (String × String))
  stopped : List (String × List (String × String))
  resized : List (String × List ResizeEntry)
  backing : String → String → StateTable

/-- One region iteration of the loop of _process_account: run the region pass
on the backing table of the scope, collect the non-empty outputs and write the
saved table back into the backing store at that scope. -/
def account_region_step (svc : ServiceDriver) (cfg : SchedulerConfig)
    (acct : AccountRef) (acc : AccBuild) (r : String) : AccBuild :=
  let pr := process_region svc cfg (acc.backing acct.name r)
    (svc.get_schedulable_instances acct.name r)
  { started := acc.started ++ (if pr.2.started ≠ [] then [(r, pr.2.started)] else []),
    stopped := acc.stopped ++ (if pr.2.stopped ≠ [] then [(r, pr.2.stopped)] else []),
    resized := acc.resized ++ (if pr.2.resized ≠ [] then [(r, pr.2.resized)] else []),
    backing := fun a r2 => if a = acct.name ∧ r2 = r then pr.1 else acc.backing a r2 }

/-- _process_account (instance_scheduler.py lines 354 to 555): iterate the
configured regions (or the home region when none is configured), thread the
per-scope backing store through each region pass, and collect the non-empty
region outputs. -/
def process_account (svc : ServiceDriver) (cfg : SchedulerConfig) (home_region : String)
    (acct : AccountRef) (backing : String → String → StateTable) :
    AccountResult × (String → String → StateTable) :=
  let regions := if cfg.regions = [] then [home_region] else cfg.regions
  let res := regions.foldl (account_region_step svc cfg acct)
    { started := [], stopped := [], resized := [], backing := backing }
  ({ started := res.started, stopped := res.stopped,
     resized := if svc.allow_resize = true then some res.resized else none },
   res.backing)

/-- Outcome of one assume-role attempt. Modelled from the spec: the STS client
is external; ok yields a session, accessDenied is the ClientError with error
code AccessDenied, otherError is any other ClientError. -/
inductive AssumeResult where
  | ok
  | accessDenied
  | otherError
deriving DecidableEq

/-- Payload sent by remove_account_from_config (instance_scheduler.py lines
141 to 189) through the asynchronous self-invocation. -/
structure DeconfigurePayload where
  account : String
  detail_type : String
  operation : String
deriving DecidableEq

/-- remove_account_from_config: builds the deconfigure payload for the given
account; the lambda invocation itself is fire and forget. -/
def remove_account_from_config (aws_account : String) : DeconfigurePayload :=
  { account := aws_account, detail_type := "Parameter Store Change",
    operation := "Delete" }

/-- Cross-account role arn assembled in _accounts (instance_scheduler.py line
248). -/
def role_arn (cfg : SchedulerConfig) (account : String) : String :=
  "arn:" ++ cfg.aws_partition ++ ":iam::" ++ account ++ ":role/" ++
    cfg.namespace_ ++ "-" ++ cfg.scheduler_role_name

/-- Remote-account loop of the _accounts generator (instance_scheduler.py
lines 241 to 253): the accounts_done list is consulted but never extended
inside the loop, exactly as in the source; get_session_for_account returns a
session on ok, and on failure logs and, for AccessDenied, emits the
deconfigure payload, in both failure cases yielding no account. -/
def accounts_loop (cfg : SchedulerConfig) (sts : String → String → AssumeResult) :
    List String → List String → List AccountRef × List DeconfigurePayload
  | [], _ => ([], [])
  | account :: rest, accounts_done =>
    if accounts_done.contains account then
      accounts_loop cfg sts rest accounts_done
    else
      match sts (role_arn cfg account) account with
      | AssumeResult.ok =>
        let tail := accounts_loop cfg sts rest accounts_done
        ({ name := account, role := some (role_arn cfg account) } :: tail.1, tail.2)
      | AssumeResult.accessDenied =>
        let tail := accounts_loop cfg sts rest accounts_done
        (tail.1, remove_account_from_config account :: tail.2)
      | AssumeResult.otherError =>
        accounts_loop cfg sts rest accounts_done

/-- The _accounts generator (instance_scheduler.py lines 191 to 253): the
lambda account is yielded first when schedule_lambda_account is set and is
recorded in accounts_done; then the remote accounts are iterated. The second
component collects the deconfigure payloads emitted along the way. -/
def accounts_gen (cfg : SchedulerConfig) (lambda_account : String)
    (sts : String → String → AssumeResult) :
    List AccountRef × List DeconfigurePayload :=
  let accounts_done := if cfg.schedule_lambda_account = true then [lambda_account] else []
  let head : List AccountRef :=
    if cfg.schedule_lambda_account = true then [{ name := lambda_account, role := none }]
    else []
  let tail := accounts_loop cfg sts cfg.remote_account_ids accounts_done
  (head ++ tail.1, tail.2)

/-- One account iteration of the loop of run: process the account against the
current backing store and append its result to the response. -/
def run_account_step (svc : ServiceDriver) (cfg : SchedulerConfig) (home_region : String)
    (acc : List (String × AccountResult) × (String → String → StateTable))
    (a : AccountRef) :
    List (String × AccountResult) × (String → String → StateTable) :=
  let pa := process_account svc cfg home_region a acc.2
  (acc.1 ++ [(a.name, pa.1)], pa.2)

/-- InstanceScheduler.run (instance_scheduler.py lines 285 to 321): process
every account yielded by the generator and collect the per-account results in
order. The return value also carries the final backing store and the
deconfigure payloads emitted by the account generator. -/
def run (svc : ServiceDriver) (cfg : SchedulerConfig) (lambda_account : String)
    (sts : String → String → AssumeResult) (home_region : String)
    (backing : String → String → StateTable) :
    List (String × AccountResult) × (String → String → StateTable) × List DeconfigurePayload :=
  let accs := accounts_gen cfg lambda_account sts
  let final := accs.1.foldl (run_account_step svc cfg home_region) ([], backing)
  (final.1, final.2, accs.2)

/-- A Key and Value entry as returned by SchedulerConfig.tag_list. -/
structure TagEntry where
  Key : String
  Value : String
deriving DecidableEq

/-- SchedulerConfig.tag_list (scheduler_config.py lines 154 to 165): the
valid_tags dictionary comprehension always produces a dictionary, never None,
so the embedding wraps it in some; the returned list is built from the full
input dictionary. -/
def tag_list (tags_dict : List (String × String)) : List TagEntry :=
  let valid_tags : Option (List (String × String)) :=
    some (tags_dict.filter (fun kv =>
      !(kv.1.startsWith "aws:" || kv.1.startsWith "cloudformation:")))
  match valid_tags with
  | some _ => tags_dict.map (fun kv => { Key := kv.1, Value := kv.2 })
  | none => []

/-- Value set for persisted desired-state records (spec section 3): running,
stopped or retain_running. -/
def GoodState (s : InstState) : Prop :=
  s = InstState.running ∨ s = InstState.stopped ∨ s = InstState.retainRunning

/-- The state table holds at most one record per instance id. -/
def NodupKeys (t : StateTable) : Prop :=
  (t.map Prod.fst).Nodup

/-- Verification helper: the effect of one _process_new_desired_state call on
the record of the processed instance and on the two action batches, as a pure
function of the desired state, the last persisted state and the retain flag.
The first component is the record value read back after the call (unknown
standing for no record), the second and third say whether the instance is
appended to the start and to the stop batch. -/
def pnds_sim (inst : Instance) (D : InstState) (last : InstState) (retain : Bool) :
    InstState × Bool × Bool :=
  if last = InstState.retainRunning then
    if D = InstState.running then (last, false, false)
    else if D = InstState.stopped then (InstState.stopped, false, false)
    else (D, false, false)
  else if D = InstState.running then
    if inst.is_running = false then (last, true, false)
    else if last = InstState.stopped then
      (if retain = true then InstState.retainRunning else InstState.running, false, false)
    else (last, false, false)
  else if D = InstState.stopped ∨ D = InstState.stoppedForResize then
    if inst.is_running = true then (last, false, true)
    else (InstState.stopped, false, false)
  else (D, false, false)

/-- Verification helper: the effect of one process_instance call on the
record of the processed instance and on the action batches, as a pure
function of the last persisted state. -/
def step_sim (cfg : SchedulerConfig) (i : Instance) (last : InstState) :
    InstState × Bool × Bool :=
  if i.is_terminated = true then (InstState.unknown, false, false)
  else match cfg.get_schedule i.schedule_name with
  | none => (last, false, false)
  | some sched =>
    if last = InstState.unknown then
      if i.is_running = true ∧
          (get_desired_state_and_type sched i).1 = InstState.stopped then
        if sched.stop_new_instances = false then (InstState.stopped, false, false)
        else pnds_sim i (get_desired_state_and_type sched i).1 last sched.retain_running
      else pnds_sim i (get_desired_state_and_type sched i).1 last sched.retain_running
    else if sched.enforced = true then
      if (i.is_running = true ∧
            (get_desired_state_and_type sched i).1 = InstState.stopped) ∨
          (i.is_running = false ∧
            (get_desired_state_and_type sched i).1 = InstState.running) then
        pnds_sim i (get_desired_state_and_type sched i).1 last sched.retain_running
      else (last, false, false)
    else if ¬(last = (get_desired_state_and_type sched i).1) then
      pnds_sim i (get_desired_state_and_type sched i).1 last sched.retain_running
    else (last, false, false)

/-- Verification helper: a state table is quiet for a scope when processing
any of the instances the driver yields there takes no start or stop action. -/
def QuietScope (svc : ServiceDriver) (cfg : SchedulerConfig) (t : StateTable)
    (a r : String) : Prop :=
  ∀ i ∈ svc.get_schedulable_instances a r,
    (step_sim cfg i (getInstanceState t i.id)).2.1 = false ∧
    (step_sim cfg i (getInstanceState t i.id)).2.2 = false

/-! Concrete fixtures used by witnesses and counterexamples. -/

/-- A maintenance window whose evaluation yields running with a pinned type. -/
def exMwRunning : MaintenanceWindow :=
  { name := "mw1", evalState := InstState.running, evalType := some "c5.large" }

/-- A schedule that opts into maintenance windows and whose own evaluation
yields stopped. -/
def exSchedMw : Schedule :=
  { name := "sch-mw", enforced := false, retain_running := false,
    stop_new_instances := true, use_maintenance_window := true,
    get_desired_state := fun _ => (InstState.stopped, none) }

/-- A running instance carrying the running maintenance window. -/
def exInstMw : Instance :=
  { id := "i-mw", instancetype := "m5.large", allow_resize := true,
    is_running := true, is_terminated := false, schedule_name := "sch-mw",
    maintenance_window := some exMwRunning, resized := false }

/-- A stopped, resizable instance whose schedule pins a different type. -/
def exInstC2 : Instance :=
  { id := "i-c2", instancetype := "m5.large", allow_resize := true,
    is_running := false, is_terminated := false, schedule_name := "sch",
    maintenance_window := none, resized := false }

/-- A schedule whose evaluation asks for running at type m5.xlarge. -/
def exSchedC2 : Schedule :=
  { name := "sch", enforced := false, retain_running := false,
    stop_new_instances := true, use_maintenance_window := false,
    get_desired_state := fun _ => (InstState.running, some "m5.xlarge") }

/-- Configuration holding only the schedule sch. -/
def exCfgC2 : SchedulerConfig :=
  { schedules := [("sch", exSchedC2)], regions := ["us-east-1"],
    remote_account_ids := [], schedule_lambda_account := true,
    aws_partition := "aws", namespace_ := "ns", scheduler_role_name := "role" }

/-- A driver whose resize_instance call always fails and whose start and stop
calls report the natural resulting states. -/
def exSvcFailResize : ServiceDriver :=
  { allow_resize := true,
    get_schedulable_instances := fun _ _ => [exInstC2],
    resize_ok := fun _ _ => false,
    start_results := fun l => l.map (fun i => (i.id, InstState.running)),
    stop_results := fun l => l.map (fun i => (i.id, InstState.stopped)) }

/-- Configuration whose remote account list contains the same account twice
and does not schedule the lambda account. -/
def exCfgC6 : SchedulerConfig :=
  { schedules := [], regions := [], remote_account_ids := ["111122223333", "111122223333"],
    schedule_lambda_account := false, aws_partition := "aws", namespace_ := "ns",
    scheduler_role_name := "role" }

/-- A driver that yields no instances at all. -/
def exSvcEmpty : ServiceDriver :=
  { allow_resize := false,
    get_schedulable_instances := fun _ _ => [],
    resize_ok := fun _ _ => true,
    start_results := fun _ => [],
    stop_results := fun _ => [] }

/-- Configuration with one remote account and no lambda-account scheduling. -/
def exCfgC7 : SchedulerConfig :=
  { schedules := [], regions := ["us-east-1"], remote_account_ids := ["222233334444"],
    schedule_lambda_account := false, aws_partition := "aws", namespace_ := "ns",
    scheduler_role_name := "role" }

/-- An STS stub denying the remote account and accepting everything else. -/
def exStsDenied : String → String → AssumeResult :=
  fun _ acc => if acc = "222233334444" then AssumeResult.accessDenied else AssumeResult.ok

/-- A running, first-sighted instance on schedule sch3. -/
def exInstC3 : Instance :=
  { id := "i-c3", instancetype := "t3.micro", allow_resize := false,
    is_running := true, is_terminated := false, schedule_name := "sch3",
    maintenance_window := none, resized := false }

/-- A non-enforced schedule with stop_new_instances false evaluating to
stopped. -/
def exSchedC3 : Schedule :=
  { name := "sch3", enforced := false, retain_running := false,
    stop_new_instances := false, use_maintenance_window := false,
    get_desired_state := fun _ => (InstState.stopped, none) }

/-- Configuration holding only sch3. -/
def exCfgC3 : SchedulerConfig :=
  { schedules := [("sch3", exSchedC3)], regions := ["r1"],
    remote_account_ids := [], schedule_lambda_account := true,
    aws_partition := "aws", namespace_ := "ns", scheduler_role_name := "role" }

/-- A driver yielding exactly the sch3 instance and reporting natural states. -/
def exSvcC3 : ServiceDriver :=
  { allow_resize := true,
    get_schedulable_instances := fun _ _ => [exInstC3],
    resize_ok := fun _ _ => true,
    start_results := fun l => l.map (fun i => (i.id, InstState.running)),
    stop_results := fun l => l.map (fun i => (i.id, InstState.stopped)) }

/-- The enforced variant of the sch3 schedule. -/
def exSchedC3e : Schedule :=
  { name := "sch3e", enforced := true, retain_running := false,
    stop_new_instances := false, use_maintenance_window := false,
    get_desired_state := fun _ => (InstState.stopped, none) }

/-- A running, first-sighted instance on the enforced schedule sch3e. -/
def exInstC3e : Instance :=
  { id := "i-c3e", instancetype := "t3.micro", allow_resize := false,
    is_running := true, is_terminated := false, schedule_name := "sch3e",
    maintenance_window := none, resized := false }

/-- Configuration holding only sch3e. -/
def exCfgC3e : SchedulerConfig :=
  { schedules := [("sch3e", exSchedC3e)], regions := ["r1"],
    remote_account_ids := [], schedule_lambda_account := true,
    aws_partition := "aws", namespace_ := "ns", scheduler_role_name := "role" }

/-- A running instance on the retaining schedule sch4. -/
def exInstC4 : Instance :=
  { id := "i-c4", instancetype := "t3.micro", allow_resize := false,
    is_running := true, is_terminated := false, schedule_name := "sch4",
    maintenance_window := none, resized := false }

/-- A non-enforced schedule with retain_running true evaluating to running. -/
def exSchedC4 : Schedule :=
  { name := "sch4", enforced := false, retain_running := true,
    stop_new_instances := true, use_maintenance_window := false,
    get_desired_state := fun _ => (InstState.running, none) }

/-- Configuration holding only sch4. -/
def exCfgC4 : SchedulerConfig :=
  { schedules := [("sch4", exSchedC4)], regions := ["r1"],
    remote_account_ids := [], schedule_lambda_account := true,
    aws_partition := "aws", namespace_ := "ns", scheduler_role_name := "role" }

/-- A driver yielding exactly the sch4 instance and reporting natural states. -/
def exSvcC4 : ServiceDriver :=
  { allow_resize := true,
    get_schedulable_instances := fun _ _ => [exInstC4],
    resize_ok := fun _ _ => true,
    start_results := fun l => l.map (fun i => (i.id, InstState.running)),
    stop_results := fun l => l.map (fun i => (i.id, InstState.stopped)) }

/-- An enforced schedule evaluating to running. -/
def exSchedC5e : Schedule :=
  { name := "sch5e", enforced := true, retain_running := false,
    stop_new_instances := true, use_maintenance_window := false,
    get_desired_state := fun _ => (InstState.running, none) }

/-- A stopped instance on the enforced schedule sch5e. -/
def exInstC5 : Instance :=
  { id := "i-c5", instancetype := "t3.micro", allow_resize := false,
    is_running := false, is_terminated := false, schedule_name := "sch5e",
    maintenance_window := none, resized := false }

/-- Configuration holding only sch5e. -/
def exCfgC5 : SchedulerConfig :=
  { schedules := [("sch5e", exSchedC5e)], regions := ["r1"],
    remote_account_ids := [], schedule_lambda_account := true,
    aws_partition := "aws", namespace_ := "ns", scheduler_role_name := "role" }

/-- A driver yielding the sch5e instance, unchanged across runs. -/
def exSvcC5 : ServiceDriver :=
  { allow_resize := false,
    get_schedulable_instances := fun _ _ => [exInstC5],
    resize_ok := fun _ _ => true,
    start_results := fun l => l.map (fun i => (i.id, InstState.running)),
    stop_results := fun l => l.map (fun i => (i.id, InstState.stopped)) }

/-! General lemmas about the spec-modelled state table. -/

/-- Looking up the written key in the map-update branch of setInstanceState. -/
theorem tableLookup_map_set_self (t : StateTable) (x : String) (s : InstState)
    (h : (tableLookup t x).isSome = true) :
    tableLookup (t.map (fun kv => if kv.1 = x then (x, s) else kv)) x = some s := by
  induction t with
  | nil => simp [tableLookup] at h
  | cons kv rest ih =>
    by_cases hk : kv.1 = x
    · simp [tableLookup, hk]
    · have h2 : (tableLookup rest x).isSome = true := by
        simpa [tableLookup, hk] using h
      simpa [tableLookup, hk] using ih h2

/-- Looking up the appended key in the insert branch of setInstanceState. -/
theorem tableLookup_append_single_self (t : StateTable) (x : String) (s : InstState)
    (h : tableLookup t x = none) :
    tableLookup (t ++ [(x, s)]) x = some s := by
  induction t with
  | nil => simp [tableLookup]
  | cons kv rest ih =>
    by_cases hk : kv.1 = x
    · simp [tableLookup, hk] at h
    · have h2 : tableLookup rest x = none := by
        simpa [tableLookup, hk] using h
      simpa [tableLookup, hk] using ih h2

/-- The map-update branch of setInstanceState leaves other keys unchanged. -/
theorem tableLookup_map_set_ne (t : StateTable) (x y : String) (s : InstState)
    (h : y ≠ x) :
    tableLookup (t.map (fun kv => if kv.1 = x then (x, s) else kv)) y = tableLookup t y := by
  induction t with
  | nil => simp
  | cons kv rest ih =>
    by_cases hk : kv.1 = x
    · have hxy : ¬x = y := fun hx => h hx.symm
      have hky : ¬kv.1 = y := by rw [hk]; exact hxy
      simp [tableLookup, hk, hxy, hky, ih]
    · by_cases hky : kv.1 = y
      · have hxy : ¬x = y := fun hx => h hx.symm
        simp [tableLookup, hk, hky, h, hxy]
      · simp [tableLookup, hk, hky, ih]

/-- The insert branch of setInstanceState leaves other keys unchanged. -/
theorem tableLookup_append_single_ne (t : StateTable) (x y : String) (s : InstState)
    (h : y ≠ x) :
    tableLookup (t ++ [(x, s)]) y = tableLookup t y := by
  induction t with
  | nil =>
    have hxy : ¬x = y := fun hx => h hx.symm
    simp [tableLookup, hxy]
  | cons kv rest ih =>
    by_cases hky : kv.1 = y
    · simp [tableLookup, hky]
    · simp [tableLookup, hky, ih]

/-- Looking up the key just written by setInstanceState returns the new state. -/
theorem tableLookup_set_self (t : StateTable) (x : String) (s : InstState) :
    tableLookup (setInstanceState t x s) x = some s := by
  unfold setInstanceState
  by_cases h : (tableLookup t x).isSome = true
  · simp only [h, if_true]
    exact tableLookup_map_set_self t x s h
  · simp only [Bool.not_eq_true] at h
    simp only [h, Bool.false_eq_true, if_false]
    exact tableLookup_append_single_self t x s (Option.not_isSome_iff_eq_none.mp (by simp [h]))

/-- setInstanceState leaves the records of other keys unchanged. -/
theorem tableLookup_set_ne (t : StateTable) (x y : String) (s : InstState)
    (h : y ≠ x) : tableLookup (setInstanceState t x s) y = tableLookup t y := by
  unfold setInstanceState
  by_cases hs : (tableLookup t x).isSome = true
  · simp only [hs, if_true]
    exact tableLookup_map_set_ne t x y s h
  · simp only [Bool.not_eq_true] at hs
    simp only [hs, Bool.false_eq_true, if_false]
    exact tableLookup_append_single_ne t x y s h

/-- getInstanceState after setInstanceState at the same key. -/
theorem getInstanceState_set_self (t : StateTable) (x : String) (s : InstState) :
    getInstanceState (setInstanceState t x s) x = s := by
  unfold getInstanceState
  rw [tableLookup_set_self]

/-- getInstanceState after setInstanceState at another key. -/
theorem getInstanceState_set_ne (t : StateTable) (x y : String) (s : InstState)
    (h : y ≠ x) : getInstanceState (setInstanceState t x s) y = getInstanceState t y := by
  unfold getInstanceState
  rw [tableLookup_set_ne t x y s h]

/-- deleteInstanceState removes the record of the deleted key. -/
theorem tableLookup_delete_self (t : StateTable) (x : String) :
    tableLookup (deleteInstanceState t x) x = none := by
  unfold deleteInstanceState
  induction t with
  | nil => simp [tableLookup]
  | cons kv rest ih =>
    rw [List.filter_cons]
    by_cases hk : kv.1 = x
    · simpa [hk] using ih
    · simpa [hk, tableLookup] using ih

/-- deleteInstanceState leaves other keys unchanged. -/
theorem tableLookup_delete_ne (t : StateTable) (x y : String) (h : y ≠ x) :
    tableLookup (deleteInstanceState t x) y = tableLookup t y := by
  unfold deleteInstanceState
  induction t with
  | nil => simp
  | cons kv rest ih =>
    rw [List.filter_cons]
    by_cases hk : kv.1 = x
    · have hky : ¬kv.1 = y := by rw [hk]; exact fun hx => h hx.symm
      have hxy : ¬x = y := fun hx => h hx.symm
      simpa [hk, tableLookup, hky, hxy] using ih
    · by_cases hky : kv.1 = y
      · have hxy : ¬x = y := fun hx => h hx.symm
        simp [hk, tableLookup, hky, h, hxy]
      · simpa [hk, tableLookup, hky] using ih

/-- Lookup through cleanupStates: kept keys read as before, others are gone. -/
theorem tableLookup_cleanup (t : StateTable) (observed : List String) (x : String) :
    tableLookup (cleanupStates t observed) x =
      if x ∈ observed then tableLookup t x else none := by
  unfold cleanupStates
  induction t with
  | nil => simp [tableLookup]
  | cons kv rest ih =>
    rw [List.filter_cons]
    by_cases hk : kv.1 = x
    · subst hk
      by_cases hob : kv.1 ∈ observed
      · simp [hob, tableLookup]
      · simpa [hob, tableLookup] using ih
    · by_cases hob : kv.1 ∈ observed
      · by_cases hx : x ∈ observed
        · simpa [hob, hx, tableLookup, hk] using ih
        · simpa [hob, hx, tableLookup, hk] using ih
      · by_cases hx : x ∈ observed
        · simpa [hob, hx, tableLookup, hk] using ih
        · simpa [hob, hx, tableLookup, hk] using ih

/-! Claim theorems. -/

/-- C8: for a schedule with use_maintenance_window true and an instance
carrying a maintenance window, the window is evaluated first and, when its
result is running, that result (state and type) replaces the schedule result;
otherwise the schedule evaluation is returned. -/
theorem C8_maintenance_window_first (sched : Schedule) (inst : Instance)
    (mw : MaintenanceWindow) (hmw : inst.maintenance_window = some mw)
    (huse : sched.use_maintenance_window = true) :
    (mw.evalState = InstState.running →
      get_desired_state_and_type sched inst = (mw.evalState, mw.evalType)) ∧
    (mw.evalState ≠ InstState.running →
      get_desired_state_and_type sched inst = sched.get_desired_state inst) := by
  unfold get_desired_state_and_type
  rw [hmw]
  constructor
  · intro h
    simp [huse, h]
  · intro h
    simp [huse, h]

/-- Witness for C8: a concrete running maintenance window overrides the
schedule evaluation of stopped. -/
theorem C8_maintenance_window_first_witness :
    get_desired_state_and_type exSchedMw exInstMw = (InstState.running, some "c5.large") :=
  (C8_maintenance_window_first exSchedMw exInstMw exMwRunning rfl rfl).1 rfl

/-- C10: tag_list returns one Key and Value entry for every key of the input
dictionary, including keys prefixed with aws: or cloudformation:; the
computed valid_tags filter has no effect on the returned list. -/
theorem C10_tag_list_ignores_filter (tags_dict : List (String × String)) :
    tag_list tags_dict = tags_dict.map (fun kv => { Key := kv.1, Value := kv.2 }) ∧
    ∀ kv ∈ tags_dict, ({ Key := kv.1, Value := kv.2 } : TagEntry) ∈ tag_list tags_dict := by
  constructor
  · rfl
  · intro kv h
    exact List.mem_map_of_mem _ h

/-- Witness for C10: an aws: prefixed key survives into the output. -/
theorem C10_tag_list_ignores_filter_witness :
    ({ Key := "aws:cloudformation:stack", Value := "v" } : TagEntry) ∈
      tag_list [("aws:cloudformation:stack", "v"), ("team", "a")] :=
  (C10_tag_list_ignores_filter [("aws:cloudformation:stack", "v"), ("team", "a")]).2
    ("aws:cloudformation:stack", "v") (by decide)

/-- C2: the code contradicts the claim and its own inline comment. For a
stopped instance with desired state running, a warranted resize and a failing
resize_instance call, the engine still appends the instance to the start list
of the cycle, because the append sits outside the exception handler of
resize_instance; the resize list stays empty. -/
theorem C2_failed_resize_still_starts :
    need_and_can_resize exInstC2 (some "m5.xlarge") = true ∧
    exSvcFailResize.resize_ok exInstC2 "m5.xlarge" = false ∧
    (process_region exSvcFailResize exCfgC2 [] [exInstC2]).2.started = [("i-c2", "sch")] ∧
    (process_region exSvcFailResize exCfgC2 [] [exInstC2]).2.resized = [] := by
  refine ⟨rfl, rfl, ?_, ?_⟩ <;> decide

/-- C6: the code contradicts the claim and its own bookkeeping comment. The
accounts_done list is never extended inside the remote-account loop, so a
remote account id occurring twice is yielded twice. -/
theorem C6_duplicate_remote_account_yielded_twice :
    ((accounts_gen exCfgC6 "999988887777" (fun _ _ => AssumeResult.ok)).1.map
      (fun a => a.name)) = ["111122223333", "111122223333"] := by
  decide

/-- The response keys of run are exactly the names of the yielded accounts,
in order (helper about the fold in run). -/
theorem run_fold_names (svc : ServiceDriver) (cfg : SchedulerConfig) (home : String)
    (l : List AccountRef) :
    ∀ init : List (String × AccountResult) × (String → String → StateTable),
      ((l.foldl (run_account_step svc cfg home) init).1.map Prod.fst)
        = init.1.map Prod.fst ++ l.map (fun a => a.name) := by
  induction l with
  | nil => intro init; simp
  | cons a rest ih =>
    intro init
    rw [List.foldl_cons, ih]
    simp [run_account_step]

/-- The response keys of run are the names yielded by the account generator. -/
theorem run_response_names (svc : ServiceDriver) (cfg : SchedulerConfig)
    (lam : String) (sts : String → String → AssumeResult) (home : String)
    (backing : String → String → StateTable) :
    (run svc cfg lam sts home backing).1.map Prod.fst
      = (accounts_gen cfg lam sts).1.map (fun a => a.name) := by
  unfold run
  rw [run_fold_names]
  simp

/-- Every account yielded by the remote-account loop had a successful
assume-role call. -/
theorem accounts_loop_names_ok (cfg : SchedulerConfig)
    (sts : String → String → AssumeResult) :
    ∀ (rest done : List String) (x : String),
      x ∈ (accounts_loop cfg sts rest done).1.map (fun a => a.name) →
      sts (role_arn cfg x) x = AssumeResult.ok := by
  intro rest
  induction rest with
  | nil => intro done x hx; simp [accounts_loop] at hx
  | cons b rest2 ih =>
    intro done x hx
    unfold accounts_loop at hx
    by_cases hc : done.contains b
    · rw [if_pos hc] at hx
      exact ih done x hx
    · rw [if_neg hc] at hx
      cases hb : sts (role_arn cfg b) b with
      | ok =>
        rw [hb] at hx
        simp only [List.map_cons, List.mem_cons] at hx
        rcases hx with hx | hx
        · rw [hx]; exact hb
        · exact ih done x hx
      | accessDenied =>
        rw [hb] at hx
        exact ih done x hx
      | otherError =>
        rw [hb] at hx
        exact ih done x hx

/-- A remote account whose assume-role call is denied has its deconfigure
payload emitted, provided the loop reaches it (it is not in accounts_done). -/
theorem accounts_loop_denied_event (cfg : SchedulerConfig)
    (sts : String → String → AssumeResult) (a : String) :
    ∀ (rest done : List String), a ∈ rest → ¬(a ∈ done) →
      sts (role_arn cfg a) a = AssumeResult.accessDenied →
      remove_account_from_config a ∈ (accounts_loop cfg sts rest done).2 := by
  intro rest
  induction rest with
  | nil => intro done h; simp at h
  | cons b rest2 ih =>
    intro done hmem hdone hsts
    unfold accounts_loop
    by_cases hba : b = a
    · subst hba
      have hc : ¬(done.contains b = true) := by
        simpa using hdone
      rw [if_neg hc, hsts]
      exact List.mem_cons_self _ _
    · have hmem2 : a ∈ rest2 := by
        rcases List.mem_cons.mp hmem with h | h
        · exact absurd h.symm hba
        · exact h
      by_cases hc : done.contains b = true
      · rw [if_pos hc]
        exact ih done hmem2 hdone hsts
      · rw [if_neg hc]
        cases hb : sts (role_arn cfg b) b with
        | ok => exact ih done hmem2 hdone hsts
        | accessDenied =>
          exact List.mem_cons_of_mem _ (ih done hmem2 hdone hsts)
        | otherError => exact ih done hmem2 hdone hsts

/-- Every deconfigure payload emitted by the remote-account loop comes from a
remote account whose assume-role call was denied. -/
theorem accounts_loop_event_origin (cfg : SchedulerConfig)
    (sts : String → String → AssumeResult) :
    ∀ (rest done : List String) (p : DeconfigurePayload),
      p ∈ (accounts_loop cfg sts rest done).2 →
      ∃ b, b ∈ rest ∧ p = remove_account_from_config b ∧
        sts (role_arn cfg b) b = AssumeResult.accessDenied := by
  intro rest
  induction rest with
  | nil => intro done p hp; simp [accounts_loop] at hp
  | cons b rest2 ih =>
    intro done p hp
    unfold accounts_loop at hp
    by_cases hc : done.contains b = true
    · rw [if_pos hc] at hp
      obtain ⟨c, hc1, hc2, hc3⟩ := ih done p hp
      exact ⟨c, List.mem_cons_of_mem _ hc1, hc2, hc3⟩
    · rw [if_neg hc] at hp
      cases hb : sts (role_arn cfg b) b with
      | ok =>
        rw [hb] at hp
        obtain ⟨c, hc1, hc2, hc3⟩ := ih done p hp
        exact ⟨c, List.mem_cons_of_mem _ hc1, hc2, hc3⟩
      | accessDenied =>
        rw [hb] at hp
        rcases List.mem_cons.mp hp with h | h
        · exact ⟨b, List.mem_cons_self _ _, h, hb⟩
        · obtain ⟨c, hc1, hc2, hc3⟩ := ih done p h
          exact ⟨c, List.mem_cons_of_mem _ hc1, hc2, hc3⟩
      | otherError =>
        rw [hb] at hp
        obtain ⟨c, hc1, hc2, hc3⟩ := ih done p hp
        exact ⟨c, List.mem_cons_of_mem _ hc1, hc2, hc3⟩

/-- C7: for a remote account distinct from a scheduled lambda account, an
access-denied assume-role failure makes the engine emit the deconfigure
payload (account id, detail-type Parameter Store Change, detail operation
Delete) and skip the account, which is then absent from the result map of
run; any other assume-role failure skips the account without emitting a
deconfigure payload for it. -/
theorem C7_access_denied_deconfigures_and_skips (svc : ServiceDriver)
    (cfg : SchedulerConfig) (lam : String) (sts : String → String → AssumeResult)
    (home : String) (backing : String → String → StateTable) (a : String)
    (hmem : a ∈ cfg.remote_account_ids)
    (hnl : ¬(cfg.schedule_lambda_account = true ∧ a = lam)) :
    (sts (role_arn cfg a) a = AssumeResult.accessDenied →
      ({ account := a, detail_type := "Parameter Store Change", operation := "Delete" }
          : DeconfigurePayload) ∈ (run svc cfg lam sts home backing).2.2 ∧
      ¬(a ∈ (run svc cfg lam sts home backing).1.map Prod.fst)) ∧
    (sts (role_arn cfg a) a = AssumeResult.otherError →
      (∀ p ∈ (run svc cfg lam sts home backing).2.2, p.account ≠ a) ∧
      ¬(a ∈ (run svc cfg lam sts home backing).1.map Prod.fst)) := by
  have hrunev : (run svc cfg lam sts home backing).2.2
      = (accounts_gen cfg lam sts).2 := rfl
  have hgenev : (accounts_gen cfg lam sts).2
      = (accounts_loop cfg sts cfg.remote_account_ids
          (if cfg.schedule_lambda_account = true then [lam] else [])).2 := rfl
  have hgennames : (accounts_gen cfg lam sts).1.map (fun x => x.name)
      = (if cfg.schedule_lambda_account = true then [lam] else []) ++
        (accounts_loop cfg sts cfg.remote_account_ids
          (if cfg.schedule_lambda_account = true then [lam] else [])).1.map (fun x => x.name) := by
    unfold accounts_gen
    by_cases hf : cfg.schedule_lambda_account = true <;> simp [hf]
  have hnotdone : ¬(a ∈ (if cfg.schedule_lambda_account = true then [lam] else [])) := by
    by_cases hf : cfg.schedule_lambda_account = true
    · rw [if_pos hf]
      intro h
      exact hnl ⟨hf, by simpa using h⟩
    · rw [if_neg hf]
      simp
  have hnotname : ∀ hne : sts (role_arn cfg a) a ≠ AssumeResult.ok,
      ¬(a ∈ (run svc cfg lam sts home backing).1.map Prod.fst) := by
    intro hne h
    rw [run_response_names, hgennames] at h
    rcases List.mem_append.mp h with h | h
    · exact hnotdone h
    · exact hne (accounts_loop_names_ok cfg sts _ _ a h)
  constructor
  · intro hsts
    refine ⟨?_, hnotname (by rw [hsts]; intro h; cases h)⟩
    rw [hrunev, hgenev]
    exact accounts_loop_denied_event cfg sts a _ _ hmem hnotdone hsts
  · intro hsts
    refine ⟨?_, hnotname (by rw [hsts]; intro h; cases h)⟩
    intro p hp hpa
    rw [hrunev, hgenev] at hp
    obtain ⟨b, _, hpb, hbsts⟩ := accounts_loop_event_origin cfg sts _ _ p hp
    have hba : b = a := by
      rw [hpb] at hpa
      exact hpa
    rw [hba] at hbsts
    rw [hsts] at hbsts
    cases hbsts

/-- Witness for C7: the denied remote account produces the deconfigure
payload and is absent from the result map. -/
theorem C7_access_denied_deconfigures_and_skips_witness :
    ({ account := "222233334444", detail_type := "Parameter Store Change",
        operation := "Delete" } : DeconfigurePayload)
        ∈ (run exSvcEmpty exCfgC7 "999" exStsDenied "us-east-1" (fun _ _ => [])).2.2 ∧
    ¬("222233334444" ∈
        (run exSvcEmpty exCfgC7 "999" exStsDenied "us-east-1" (fun _ _ => [])).1.map Prod.fst) :=
  (C7_access_denied_deconfigures_and_skips exSvcEmpty exCfgC7 "999" exStsDenied
    "us-east-1" (fun _ _ => []) "222233334444" (by decide) (by decide)).1 (by decide)

/-- C3 amended: a first-sighted running instance whose desired state is
stopped under a stop_new_instances false schedule has stopped persisted and
is not acted on in that cycle; a subsequent cycle with the same conditions
stops it when the schedule is enforced (a non-enforced schedule honours the
running state instead, see the counterexample). -/
theorem C3_grace_then_stop_when_enforced (svc : ServiceDriver) (cfg : SchedulerConfig)
    (i : Instance) (sched : Schedule) (t0 : StateTable) (dt : Option String)
    (hs : cfg.get_schedule i.schedule_name = some sched)
    (hterm : i.is_terminated = false)
    (hrun : i.is_running = true)
    (hD : get_desired_state_and_type sched i = (InstState.stopped, dt))
    (hnew : getInstanceState t0 i.id = InstState.unknown)
    (hsni : sched.stop_new_instances = false)
    (henf : sched.enforced = true) :
    (process_region svc cfg t0 [i]).2.stopped = [] ∧
    (process_region svc cfg t0 [i]).2.started = [] ∧
    getInstanceState (process_region svc cfg t0 [i]).1 i.id = InstState.stopped ∧
    (process_region svc cfg (process_region svc cfg t0 [i]).1 [i]).2.stopped
      = [(i.id, i.schedule_name)] := by
  have hpi : process_instance svc cfg
      { store := t0, start_list := [], stop_list := [], resize_list := [] } i
      = { store := setInstanceState t0 i.id InstState.stopped,
          start_list := [], stop_list := [], resize_list := [] } := by
    unfold process_instance
    rw [hterm]
    simp only [Bool.false_eq_true, if_false]
    rw [hs]
    simp only [hD, hnew, hrun, hsni]
    simp
  have hc1 : process_region svc cfg t0 [i]
      = (cleanupStates (setInstanceState t0 i.id InstState.stopped) [i.id],
         { started := [], stopped := [], resized := [] }) := by
    unfold process_region
    simp only [List.cons_ne_self, List.foldl_cons, List.foldl_nil, hpi]
    simp [start_and_stop_instances]
  have hgis : getInstanceState (cleanupStates (setInstanceState t0 i.id InstState.stopped) [i.id]) i.id
      = InstState.stopped := by
    unfold getInstanceState
    rw [tableLookup_cleanup]
    simp [tableLookup_set_self]
  have hpi2 : process_instance svc cfg
      { store := cleanupStates (setInstanceState t0 i.id InstState.stopped) [i.id],
        start_list := [], stop_list := [], resize_list := [] } i
      = { store := cleanupStates (setInstanceState t0 i.id InstState.stopped) [i.id],
          start_list := [], stop_list := [i], resize_list := [] } := by
    unfold process_instance
    rw [hterm]
    simp only [Bool.false_eq_true, if_false]
    rw [hs]
    simp only [hD, hgis, hrun, henf]
    unfold process_new_desired_state
    simp [hrun]
  refine ⟨?_, ?_, ?_, ?_⟩
  · rw [hc1]
  · rw [hc1]
  · rw [hc1]; exact hgis
  · rw [hc1]
    unfold process_region
    simp only [List.cons_ne_self, List.foldl_cons, List.foldl_nil, hpi2]
    simp

/-- Witness for C3: the enforced fixture goes through both cycles as stated. -/
theorem C3_grace_then_stop_when_enforced_witness :
    (process_region exSvcC3 exCfgC3e [] [exInstC3e]).2.stopped = [] ∧
    (process_region exSvcC3 exCfgC3e [] [exInstC3e]).2.started = [] ∧
    getInstanceState (process_region exSvcC3 exCfgC3e [] [exInstC3e]).1 "i-c3e"
      = InstState.stopped ∧
    (process_region exSvcC3 exCfgC3e (process_region exSvcC3 exCfgC3e [] [exInstC3e]).1
      [exInstC3e]).2.stopped = [("i-c3e", "sch3e")] :=
  C3_grace_then_stop_when_enforced exSvcC3 exCfgC3e exInstC3e exSchedC3e [] none
    rfl rfl rfl rfl rfl rfl rfl

/-- Counterexample for C3 as stated: with a non-enforced schedule the second
cycle under the very same conditions does not stop the instance (the stop
list stays empty and the persisted state stays stopped), so the claim that a
subsequent cycle stops it is false on the code. -/
theorem C3_counterexample_not_stopped_later :
    (process_region exSvcC3 exCfgC3 [] [exInstC3]).2.stopped = [] ∧
    getInstanceState (process_region exSvcC3 exCfgC3 [] [exInstC3]).1 "i-c3"
      = InstState.stopped ∧
    (process_region exSvcC3 exCfgC3 (process_region exSvcC3 exCfgC3 [] [exInstC3]).1
      [exInstC3]).2.stopped = [] ∧
    (process_region exSvcC3 exCfgC3 (process_region exSvcC3 exCfgC3 [] [exInstC3]).1
      [exInstC3]).2.started = [] := by
  refine ⟨?_, ?_, ?_, ?_⟩ <;> decide

/-- getInstanceState after deleteInstanceState at the deleted key. -/
theorem getInstanceState_delete_self (t : StateTable) (x : String) :
    getInstanceState (deleteInstanceState t x) x = InstState.unknown := by
  unfold getInstanceState
  rw [tableLookup_delete_self]

/-- getInstanceState after deleteInstanceState at another key. -/
theorem getInstanceState_delete_ne (t : StateTable) (x y : String) (h : ¬(y = x)) :
    getInstanceState (deleteInstanceState t x) y = getInstanceState t y := by
  unfold getInstanceState
  rw [tableLookup_delete_ne t x y h]

/-- The store of process_new_desired_state agrees with the incoming store on
every key other than the id of the processed instance. -/
theorem pnds_store_frame (svc : ServiceDriver) (rs : RegionState) (inst : Instance)
    (D : InstState) (dt : Option String) (last : InstState) (retain : Bool)
    (x : String) (hx : ¬(x = inst.id)) :
    getInstanceState (process_new_desired_state svc rs inst D dt last retain).store x
      = getInstanceState rs.store x := by
  unfold process_new_desired_state
  repeat' split
  all_goals first
    | rfl
    | exact getInstanceState_set_ne _ _ _ _ hx

/-- process_new_desired_state appends the processed instance to at most one
of the start and stop lists, and any appended stop entry keeps its id. -/
theorem pnds_lists (svc : ServiceDriver) (rs : RegionState) (inst : Instance)
    (D : InstState) (dt : Option String) (last : InstState) (retain : Bool) :
    ((process_new_desired_state svc rs inst D dt last retain).start_list = rs.start_list ∧
      (process_new_desired_state svc rs inst D dt last retain).stop_list = rs.stop_list) ∨
    ((process_new_desired_state svc rs inst D dt last retain).start_list
        = rs.start_list ++ [inst] ∧
      (process_new_desired_state svc rs inst D dt last retain).stop_list = rs.stop_list) ∨
    ((process_new_desired_state svc rs inst D dt last retain).start_list = rs.start_list ∧
      ∃ j : Instance, j.id = inst.id ∧
        (process_new_desired_state svc rs inst D dt last retain).stop_list
          = rs.stop_list ++ [j]) := by
  unfold process_new_desired_state
  repeat' split
  all_goals first
    | exact Or.inl ⟨rfl, rfl⟩
    | exact Or.inr (Or.inl ⟨rfl, rfl⟩)
    | exact Or.inr (Or.inr ⟨rfl, ⟨{ inst with resized := true }, rfl, rfl⟩⟩)
    | exact Or.inr (Or.inr ⟨rfl, ⟨inst, rfl, rfl⟩⟩)

/-- The only way process_new_desired_state records retain_running for a key,
when the desired state itself is not retain_running, is the transition branch:
the instance is running, the retain flag is set, the last persisted state was
stopped and the desired state is running. -/
theorem pnds_retain_origin (svc : ServiceDriver) (rs : RegionState) (inst : Instance)
    (D : InstState) (dt : Option String) (last : InstState) (retain : Bool)
    (hDne : ¬(D = InstState.retainRunning)) (x : String)
    (h : getInstanceState (process_new_desired_state svc rs inst D dt last retain).store x
          = InstState.retainRunning) :
    getInstanceState rs.store x = InstState.retainRunning ∨
    (x = inst.id ∧ inst.is_running = true ∧ retain = true ∧
      last = InstState.stopped ∧ D = InstState.running) := by
  by_cases hx : x = inst.id
  case neg =>
    left
    rw [← pnds_store_frame svc rs inst D dt last retain x hx]
    exact h
  case pos =>
    subst hx
    unfold process_new_desired_state at h
    by_cases h1 : last = InstState.retainRunning
    · rw [if_pos h1] at h
      by_cases h2 : D = InstState.running
      · rw [if_pos h2] at h
        exact Or.inl h
      · rw [if_neg h2] at h
        by_cases h3 : D = InstState.stopped
        · rw [if_pos h3] at h
          have hv := getInstanceState_set_self rs.store inst.id InstState.stopped
          exact absurd (hv.symm.trans h) (by decide)
        · rw [if_neg h3] at h
          have hv := getInstanceState_set_self rs.store inst.id D
          exact absurd (hv.symm.trans h) hDne
    · rw [if_neg h1] at h
      by_cases h2 : D = InstState.running
      · rw [if_pos h2] at h
        by_cases h3 : inst.is_running = false
        · rw [if_pos h3] at h
          by_cases h4 : need_and_can_resize inst dt = true
          · rw [if_pos h4] at h
            by_cases h5 : svc.resize_ok inst (dt.getD inst.instancetype) = true
            · rw [if_pos h5] at h
              exact Or.inl h
            · rw [if_neg h5] at h
              exact Or.inl h
          · rw [if_neg h4] at h
            exact Or.inl h
        · rw [if_neg h3] at h
          by_cases h4 : last = InstState.stopped
          · rw [if_pos h4] at h
            by_cases h5 : retain = true
            · rw [if_pos h5] at h
              have hrun : inst.is_running = true := by
                cases hb : inst.is_running
                · exact absurd hb h3
                · rfl
              exact Or.inr ⟨rfl, hrun, h5, h4, h2⟩
            · rw [if_neg h5] at h
              have hv := getInstanceState_set_self rs.store inst.id InstState.running
              exact absurd (hv.symm.trans h) (by decide)
          · rw [if_neg h4] at h
            exact Or.inl h
      · rw [if_neg h2] at h
        by_cases h3 : D = InstState.stopped ∨ D = InstState.stoppedForResize
        · rw [if_pos h3] at h
          by_cases h4 : inst.is_running = true
          · rw [if_pos h4] at h
            by_cases h5 : D = InstState.stoppedForResize
            · rw [if_pos h5] at h
              exact Or.inl h
            · rw [if_neg h5] at h
              exact Or.inl h
          · rw [if_neg h4] at h
            have hv := getInstanceState_set_self rs.store inst.id InstState.stopped
            exact absurd (hv.symm.trans h) (by decide)
        · rw [if_neg h3] at h
          have hv := getInstanceState_set_self rs.store inst.id D
          exact absurd (hv.symm.trans h) hDne

/-- The store of process_instance agrees with the incoming store on every key
other than the id of the processed instance. -/
theorem pi_store_frame (svc : ServiceDriver) (cfg : SchedulerConfig)
    (rs : RegionState) (i : Instance) (x : String) (hx : ¬(x = i.id)) :
    getInstanceState (process_instance svc cfg rs i).store x
      = getInstanceState rs.store x := by
  unfold process_instance
  repeat' split
  all_goals first
    | rfl
    | exact getInstanceState_set_ne _ _ _ _ hx
    | exact getInstanceState_delete_ne _ _ _ hx
    | exact pnds_store_frame _ _ _ _ _ _ _ x hx

/-- process_instance appends the processed instance to at most one of the
start and stop lists, and any appended stop entry keeps its id. -/
theorem pi_lists (svc : ServiceDriver) (cfg : SchedulerConfig)
    (rs : RegionState) (i : Instance) :
    ((process_instance svc cfg rs i).start_list = rs.start_list ∧
      (process_instance svc cfg rs i).stop_list = rs.stop_list) ∨
    ((process_instance svc cfg rs i).start_list = rs.start_list ++ [i] ∧
      (process_instance svc cfg rs i).stop_list = rs.stop_list) ∨
    ((process_instance svc cfg rs i).start_list = rs.start_list ∧
      ∃ j : Instance, j.id = i.id ∧
        (process_instance svc cfg rs i).stop_list = rs.stop_list ++ [j]) := by
  unfold process_instance
  repeat' split
  all_goals first
    | exact Or.inl ⟨rfl, rfl⟩
    | exact pnds_lists svc rs i _ _ _ _

/-- The only way process_instance records retain_running for a key, when the
schedule evaluation never yields retain_running, is the retain transition:
the instance is running, its schedule has the retain flag, the last persisted
state was stopped and the resolved desired state is running. -/
theorem pi_retain_origin (svc : ServiceDriver) (cfg : SchedulerConfig)
    (rs : RegionState) (i : Instance)
    (hDne : ∀ sched, cfg.get_schedule i.schedule_name = some sched →
      ¬((get_desired_state_and_type sched i).1 = InstState.retainRunning))
    (x : String)
    (h : getInstanceState (process_instance svc cfg rs i).store x
          = InstState.retainRunning) :
    getInstanceState rs.store x = InstState.retainRunning ∨
    (x = i.id ∧ i.is_running = true ∧
      ∃ sched, cfg.get_schedule i.schedule_name = some sched ∧
        sched.retain_running = true ∧
        getInstanceState rs.store i.id = InstState.stopped ∧
        (get_desired_state_and_type sched i).1 = InstState.running) := by
  unfold process_instance at h
  by_cases hterm : i.is_terminated = true
  · rw [if_pos hterm] at h
    by_cases hx : x = i.id
    · subst hx
      have hd := getInstanceState_delete_self rs.store i.id
      exact absurd (hd.symm.trans h) (by decide)
    · left
      exact (getInstanceState_delete_ne rs.store i.id x hx).symm.trans h
  · rw [if_neg hterm] at h
    cases hsch : cfg.get_schedule i.schedule_name with
    | none =>
      rw [hsch] at h
      exact Or.inl h
    | some sched =>
      rw [hsch] at h
      dsimp only at h
      have hDs : ¬((get_desired_state_and_type sched i).1 = InstState.retainRunning) :=
        hDne sched hsch
      by_cases hu : getInstanceState rs.store i.id = InstState.unknown
      · rw [if_pos hu] at h
        by_cases hc : i.is_running = true ∧
            (get_desired_state_and_type sched i).1 = InstState.stopped
        · rw [if_pos hc] at h
          by_cases hsni : sched.stop_new_instances = false
          · rw [if_pos hsni] at h
            by_cases hx : x = i.id
            · subst hx
              have hv := getInstanceState_set_self rs.store i.id InstState.stopped
              exact absurd (hv.symm.trans h) (by decide)
            · left
              exact (getInstanceState_set_ne rs.store i.id x InstState.stopped hx).symm.trans h
          · rw [if_neg hsni] at h
            rcases pnds_retain_origin svc rs i _ _ _ _ hDs x h with h3 | ⟨he, hr, hret, hlast, hD⟩
            · exact Or.inl h3
            · exact Or.inr ⟨he, hr, sched, rfl, hret, hlast, hD⟩
        · rw [if_neg hc] at h
          rcases pnds_retain_origin svc rs i _ _ _ _ hDs x h with h3 | ⟨he, hr, hret, hlast, hD⟩
          · exact Or.inl h3
          · exact Or.inr ⟨he, hr, sched, rfl, hret, hlast, hD⟩
      · rw [if_neg hu] at h
        by_cases henf : sched.enforced = true
        · rw [if_pos henf] at h
          by_cases hc : (i.is_running = true ∧
                (get_desired_state_and_type sched i).1 = InstState.stopped) ∨
              (i.is_running = false ∧
                (get_desired_state_and_type sched i).1 = InstState.running)
          · rw [if_pos hc] at h
            rcases pnds_retain_origin svc rs i _ _ _ _ hDs x h with h3 | ⟨he, hr, hret, hlast, hD⟩
            · exact Or.inl h3
            · exact Or.inr ⟨he, hr, sched, rfl, hret, hlast, hD⟩
          · rw [if_neg hc] at h
            exact Or.inl h
        · rw [if_neg henf] at h
          by_cases hne : ¬(getInstanceState rs.store i.id
              = (get_desired_state_and_type sched i).1)
          · rw [if_pos hne] at h
            rcases pnds_retain_origin svc rs i _ _ _ _ hDs x h with h3 | ⟨he, hr, hret, hlast, hD⟩
            · exact Or.inl h3
            · exact Or.inr ⟨he, hr, sched, rfl, hret, hlast, hD⟩
          · rw [if_neg hne] at h
            exact Or.inl h

/-- Folding process_instance over instances with pairwise distinct ids keeps
the ids of the start and stop batches disjoint. -/
theorem fold_start_stop_disjoint (svc : ServiceDriver) (cfg : SchedulerConfig) :
    ∀ (l : List Instance) (rs : RegionState) (seen : List String),
      (∀ y ∈ rs.start_list, y.id ∈ seen) →
      (∀ y ∈ rs.stop_list, y.id ∈ seen) →
      (∀ x, ¬(x ∈ rs.start_list.map (fun y => y.id) ∧
              x ∈ rs.stop_list.map (fun y => y.id))) →
      (∀ i ∈ l, ¬(i.id ∈ seen)) →
      ((l.map (fun i => i.id)).Nodup) →
      ∀ x, ¬(x ∈ (l.foldl (process_instance svc cfg) rs).start_list.map (fun y => y.id) ∧
             x ∈ (l.foldl (process_instance svc cfg) rs).stop_list.map (fun y => y.id)) := by
  intro l
  induction l with
  | nil =>
    intro rs seen h1 h2 h3 _ _ x
    exact h3 x
  | cons i l2 ih =>
    intro rs seen h1 h2 h3 hseen hnd x
    rw [List.foldl_cons]
    rw [List.map_cons, List.nodup_cons] at hnd
    obtain ⟨hni, hnd2⟩ := hnd
    have hseen2 : ∀ j ∈ l2, ¬(j.id ∈ i.id :: seen) := by
      intro j hj2 hmem
      rcases List.mem_cons.mp hmem with he | he
      · exact hni (he ▸ List.mem_map_of_mem _ hj2)
      · exact hseen j (List.mem_cons_of_mem _ hj2) he
    rcases pi_lists svc cfg rs i with ⟨hs, hp⟩ | ⟨hs, hp⟩ | ⟨hs, j, hj, hp⟩
    · refine ih (process_instance svc cfg rs i) (i.id :: seen) ?_ ?_ ?_ hseen2 hnd2 x
      · intro y hy
        exact List.mem_cons_of_mem _ (h1 y (hs ▸ hy))
      · intro y hy
        exact List.mem_cons_of_mem _ (h2 y (hp ▸ hy))
      · intro z hz
        rw [hs, hp] at hz
        exact h3 z hz
    · refine ih (process_instance svc cfg rs i) (i.id :: seen) ?_ ?_ ?_ hseen2 hnd2 x
      · intro y hy
        rw [hs] at hy
        rcases List.mem_append.mp hy with hy2 | hy2
        · exact List.mem_cons_of_mem _ (h1 y hy2)
        · rw [List.mem_singleton.mp hy2]
          exact List.mem_cons_self _ _
      · intro y hy
        exact List.mem_cons_of_mem _ (h2 y (hp ▸ hy))
      · intro z hz
        rw [hs, hp] at hz
        obtain ⟨hz1, hz2⟩ := hz
        rw [List.map_append, List.mem_append] at hz1
        rcases hz1 with hz1 | hz1
        · exact h3 z ⟨hz1, hz2⟩
        · rw [List.map_singleton, List.mem_singleton] at hz1
          subst hz1
          obtain ⟨y, hy, hyid⟩ := List.mem_map.mp hz2
          exact hseen i (List.mem_cons_self _ _) (hyid ▸ h2 y hy)
    · refine ih (process_instance svc cfg rs i) (i.id :: seen) ?_ ?_ ?_ hseen2 hnd2 x
      · intro y hy
        exact List.mem_cons_of_mem _ (h1 y (hs ▸ hy))
      · intro y hy
        rw [hp] at hy
        rcases List.mem_append.mp hy with hy2 | hy2
        · exact List.mem_cons_of_mem _ (h2 y hy2)
        · rw [List.mem_singleton.mp hy2, hj]
          exact List.mem_cons_self _ _
      · intro z hz
        rw [hs, hp] at hz
        obtain ⟨hz1, hz2⟩ := hz
        rw [List.map_append, List.mem_append] at hz2
        rcases hz2 with hz2 | hz2
        · exact h3 z ⟨hz1, hz2⟩
        · rw [List.map_singleton, List.mem_singleton] at hz2
          subst hz2
          obtain ⟨y, hy, hyid⟩ := List.mem_map.mp hz1
          rw [hj] at *
          exact hseen i (List.mem_cons_self _ _) (hyid ▸ h1 y hy)

/-- C9: with the driver yielding each instance id at most once per region, no
id appears both in the started output and in the stopped output of a region
pass. -/
theorem C9_start_stop_disjoint (svc : ServiceDriver) (cfg : SchedulerConfig)
    (t0 : StateTable) (instances : List Instance)
    (hids : (instances.map (fun i => i.id)).Nodup) (x : String) :
    ¬(x ∈ (process_region svc cfg t0 instances).2.started.map Prod.fst ∧
      x ∈ (process_region svc cfg t0 instances).2.stopped.map Prod.fst) := by
  intro hx
  obtain ⟨hx1, hx2⟩ := hx
  by_cases hnil : instances = []
  · subst hnil
    unfold process_region at hx1
    simp at hx1
  · unfold process_region at hx1 hx2
    rw [if_neg hnil] at hx1 hx2
    rw [List.map_map] at hx1 hx2
    have hfold := fold_start_stop_disjoint svc cfg instances
      { store := t0, start_list := [], stop_list := [], resize_list := [] } []
      (by intro y hy; simp at hy) (by intro y hy; simp at hy)
      (by intro z hz; simp at hz) (by intro i _ hmem; simp at hmem) hids x
    exact hfold ⟨by simpa using hx1, by simpa using hx2⟩

/-- Witness for C9: a two-instance region with distinct ids. -/
theorem C9_start_stop_disjoint_witness :
    ¬("i-c3" ∈ (process_region exSvcC3 exCfgC3 [] [exInstC3, exInstC4]).2.started.map Prod.fst ∧
      "i-c3" ∈ (process_region exSvcC3 exCfgC3 [] [exInstC3, exInstC4]).2.stopped.map Prod.fst) :=
  C9_start_stop_disjoint exSvcC3 exCfgC3 [] [exInstC3, exInstC4] (by decide) "i-c3"

/-- A record surviving a fold of driver state writes either was written by
one of the pairs or was already present. -/
theorem foldl_set_lookup_origin (ps : List (String × InstState)) :
    ∀ (t : StateTable) (x : String) (s : InstState),
      tableLookup (ps.foldl (fun t2 p => setInstanceState t2 p.1 p.2) t) x = some s →
      (x, s) ∈ ps ∨ tableLookup t x = some s := by
  induction ps with
  | nil =>
    intro t x s h
    exact Or.inr h
  | cons p ps2 ih =>
    intro t x s h
    rw [List.foldl_cons] at h
    rcases ih _ x s h with h2 | h2
    · exact Or.inl (List.mem_cons_of_mem _ h2)
    · by_cases hx : x = p.1
      · subst hx
        rw [tableLookup_set_self] at h2
        have hv : p.2 = s := by
          injection h2
        left
        rw [← hv, Prod.mk.eta]
        exact List.mem_cons_self _ _
      · rw [tableLookup_set_ne _ _ _ _ hx] at h2
        exact Or.inr h2

/-- A non-unknown getInstanceState reading comes from an actual record. -/
theorem gis_to_lookup (t : StateTable) (x : String) (s : InstState)
    (hne : ¬(s = InstState.unknown)) (h : getInstanceState t x = s) :
    tableLookup t x = some s := by
  unfold getInstanceState at h
  cases hl : tableLookup t x with
  | none =>
    rw [hl] at h
    exact absurd h.symm hne
  | some v =>
    rw [hl] at h
    dsimp only at h
    rw [h]

/-- A record reading determines getInstanceState. -/
theorem lookup_to_gis (t : StateTable) (x : String) (s : InstState)
    (h : tableLookup t x = some s) : getInstanceState t x = s := by
  unfold getInstanceState
  rw [h]

/-- The batch-commit phase never introduces a retain_running record when the
driver reports no retain_running state. -/
theorem sas_retain_origin (svc : ServiceDriver) (rs : RegionState)
    (hdrv1 : ∀ p ∈ svc.start_results rs.start_list, ¬(p.2 = InstState.retainRunning))
    (hdrv2 : ∀ p ∈ svc.stop_results rs.stop_list, ¬(p.2 = InstState.retainRunning))
    (x : String)
    (h : getInstanceState (start_and_stop_instances svc rs) x = InstState.retainRunning) :
    getInstanceState rs.store x = InstState.retainRunning := by
  unfold start_and_stop_instances at h
  have hlk := gis_to_lookup _ _ _ (by decide) h
  by_cases hstart : rs.start_list ≠ []
  · rw [if_pos hstart] at hlk
    by_cases hstop : rs.stop_list ≠ []
    · rw [if_pos hstop] at hlk
      rcases foldl_set_lookup_origin _ _ _ _ hlk with h2 | h2
      · exact absurd rfl (hdrv2 _ h2)
      · rcases foldl_set_lookup_origin _ _ _ _ h2 with h3 | h3
        · exact absurd rfl (hdrv1 _ h3)
        · exact lookup_to_gis _ _ _ h3
    · rw [if_neg hstop] at hlk
      rcases foldl_set_lookup_origin _ _ _ _ hlk with h2 | h2
      · exact absurd rfl (hdrv1 _ h2)
      · exact lookup_to_gis _ _ _ h2
  · rw [if_neg hstart] at hlk
    by_cases hstop : rs.stop_list ≠ []
    · rw [if_pos hstop] at hlk
      rcases foldl_set_lookup_origin _ _ _ _ hlk with h2 | h2
      · exact absurd rfl (hdrv2 _ h2)
      · exact lookup_to_gis _ _ _ h2
    · rw [if_neg hstop] at hlk
      exact lookup_to_gis _ _ _ hlk

/-- Folding process_instance over instances with pairwise distinct ids records
retain_running only through the retain transition, measured against the table
the fold started from. -/
theorem fold_retain_origin (svc : ServiceDriver) (cfg : SchedulerConfig) :
    ∀ (l : List Instance) (rs : RegionState),
      ((l.map (fun i => i.id)).Nodup) →
      (∀ i ∈ l, ∀ sched, cfg.get_schedule i.schedule_name = some sched →
        ¬((get_desired_state_and_type sched i).1 = InstState.retainRunning)) →
      ∀ x, getInstanceState (l.foldl (process_instance svc cfg) rs).store x
            = InstState.retainRunning →
        getInstanceState rs.store x = InstState.retainRunning ∨
        ∃ i, i ∈ l ∧ x = i.id ∧ i.is_running = true ∧
          ∃ sched, cfg.get_schedule i.schedule_name = some sched ∧
            sched.retain_running = true ∧
            getInstanceState rs.store i.id = InstState.stopped ∧
            (get_desired_state_and_type sched i).1 = InstState.running := by
  intro l
  induction l with
  | nil =>
    intro rs _ _ x h
    exact Or.inl h
  | cons i l2 ih =>
    intro rs hnd hDall x h
    rw [List.foldl_cons] at h
    rw [List.map_cons, List.nodup_cons] at hnd
    obtain ⟨hni, hnd2⟩ := hnd
    rcases ih (process_instance svc cfg rs i) hnd2
        (fun j hj => hDall j (List.mem_cons_of_mem _ hj)) x h with
      h2 | ⟨j, hj, hxj, hrj, sched, hsch, hret, hlast, hD⟩
    · rcases pi_retain_origin svc cfg rs i (hDall i (List.mem_cons_self _ _)) x h2 with
        h3 | ⟨he, hr, sched, hsch, hret, hlast, hD⟩
      · exact Or.inl h3
      · exact Or.inr ⟨i, List.mem_cons_self _ _, he, hr, sched, hsch, hret, hlast, hD⟩
    · have hne : ¬(j.id = i.id) := fun he => hni (he ▸ List.mem_map_of_mem _ hj)
      have hlast0 : getInstanceState rs.store j.id = InstState.stopped := by
        rw [← pi_store_frame svc cfg rs i j.id hne]
        exact hlast
      exact Or.inr ⟨j, List.mem_cons_of_mem _ hj, hxj, hrj, sched, hsch, hret, hlast0, hD⟩

/-- C4: one region cycle persists retain_running for a key only when it was
already persisted before the cycle, or through the retain transition of some
observed instance: the instance is running, its schedule has retain_running
set, the previously persisted state for it was stopped (so retain_running is
never an initial state) and its resolved desired state is running. The
hypotheses say that the driver yields each id once, that schedule evaluation
never returns retain_running, and that driver start and stop reports never
carry retain_running. -/
theorem C4_retain_running_only_on_transition (svc : ServiceDriver)
    (cfg : SchedulerConfig) (t0 : StateTable) (instances : List Instance)
    (hids : (instances.map (fun i => i.id)).Nodup)
    (hDne : ∀ i ∈ instances, ∀ sched, cfg.get_schedule i.schedule_name = some sched →
      ¬((get_desired_state_and_type sched i).1 = InstState.retainRunning))
    (hdrv1 : ∀ l p, p ∈ svc.start_results l → ¬(p.2 = InstState.retainRunning))
    (hdrv2 : ∀ l p, p ∈ svc.stop_results l → ¬(p.2 = InstState.retainRunning))
    (x : String)
    (h : getInstanceState (process_region svc cfg t0 instances).1 x
          = InstState.retainRunning) :
    getInstanceState t0 x = InstState.retainRunning ∨
    ∃ i, i ∈ instances ∧ x = i.id ∧ i.is_running = true ∧
      ∃ sched, cfg.get_schedule i.schedule_name = some sched ∧
        sched.retain_running = true ∧
        getInstanceState t0 i.id = InstState.stopped ∧
        (get_desired_state_and_type sched i).1 = InstState.running := by
  by_cases hnil : instances = []
  · subst hnil
    unfold process_region at h
    exact Or.inl h
  · unfold process_region at h
    rw [if_neg hnil] at h
    have hlk := gis_to_lookup _ _ _ (by decide) h
    rw [tableLookup_cleanup] at hlk
    by_cases hobs : x ∈ instances.map (fun i => i.id)
    · rw [if_pos hobs] at hlk
      have h2 := sas_retain_origin svc _ (hdrv1 _) (hdrv2 _) x (lookup_to_gis _ _ _ hlk)
      exact fold_retain_origin svc cfg instances
        { store := t0, start_list := [], stop_list := [], resize_list := [] }
        hids hDne x h2
    · rw [if_neg hobs] at hlk
      cases hlk

/-- Witness for C4: the sch4 fixture produces a retain_running record and the
theorem pins its origin. -/
theorem C4_retain_running_only_on_transition_witness :
    getInstanceState [("i-c4", InstState.stopped)] "i-c4" = InstState.retainRunning ∨
    ∃ i, i ∈ [exInstC4] ∧ "i-c4" = i.id ∧ i.is_running = true ∧
      ∃ sched, exCfgC4.get_schedule i.schedule_name = some sched ∧
        sched.retain_running = true ∧
        getInstanceState [("i-c4", InstState.stopped)] i.id = InstState.stopped ∧
        (get_desired_state_and_type sched i).1 = InstState.running :=
  C4_retain_running_only_on_transition exSvcC4 exCfgC4 [("i-c4", InstState.stopped)]
    [exInstC4] (by decide)
    (by
      intro i hi sched hsch
      have hi2 : i = exInstC4 := by simpa using hi
      subst hi2
      rw [show exCfgC4.get_schedule exInstC4.schedule_name = some exSchedC4 from rfl] at hsch
      injection hsch with hs2
      subst hs2
      decide)
    (by
      intro l p hp
      obtain ⟨i2, _, hpe⟩ := List.mem_map.mp hp
      intro hq
      rw [← hpe] at hq
      exact (by decide : ¬(InstState.running = InstState.retainRunning)) hq)
    (by
      intro l p hp
      obtain ⟨i2, _, hpe⟩ := List.mem_map.mp hp
      intro hq
      rw [← hpe] at hq
      exact (by decide : ¬(InstState.stopped = InstState.retainRunning)) hq)
    "i-c4" (by decide)

/-- A key with no record is not among the table keys. -/
theorem not_mem_keys_of_lookup_none (t : StateTable) (x : String)
    (h : tableLookup t x = none) : ¬(x ∈ t.map Prod.fst) := by
  induction t with
  | nil => simp
  | cons kv rest ih =>
    by_cases hk : kv.1 = x
    · simp [tableLookup, hk] at h
    · have h2 : tableLookup rest x = none := by
        simpa [tableLookup, hk] using h
      intro hmem
      rw [List.map_cons, List.mem_cons] at hmem
      rcases hmem with he | he
      · exact hk he.symm
      · exact ih h2 he

/-- setInstanceState keeps the keys of the table duplicate-free. -/
theorem nodupkeys_set (t : StateTable) (x : String) (s : InstState)
    (h : NodupKeys t) : NodupKeys (setInstanceState t x s) := by
  unfold setInstanceState
  by_cases hp : (tableLookup t x).isSome = true
  · rw [if_pos hp]
    unfold NodupKeys at *
    have hkeys : (t.map (fun kv => if kv.1 = x then (x, s) else kv)).map Prod.fst
        = t.map Prod.fst := by
      rw [List.map_map]
      apply List.map_congr_left
      intro kv _
      by_cases hk : kv.1 = x
      · simp [hk]
      · simp [hk]
    rw [hkeys]
    exact h
  · simp only [Bool.not_eq_true] at hp
    simp only [hp, Bool.false_eq_true, if_false]
    unfold NodupKeys at *
    rw [List.map_append]
    refine List.nodup_append.mpr ⟨h, by simp, ?_⟩
    intro a ha hax
    have hx : a = x := by simpa using hax
    subst hx
    exact not_mem_keys_of_lookup_none t a
      (Option.not_isSome_iff_eq_none.mp (by simp [hp])) ha

/-- Filtering keeps the keys of the table duplicate-free. -/
theorem nodupkeys_filter (t : StateTable) (p : String × InstState → Bool)
    (h : NodupKeys t) : NodupKeys (t.filter p) := by
  unfold NodupKeys at *
  exact List.Nodup.sublist (List.Sublist.map Prod.fst (List.filter_sublist t)) h

/-- setInstanceState with a good value keeps all record values good. -/
theorem goodvals_set (t : StateTable) (x : String) (s : InstState)
    (h : ∀ kv ∈ t, GoodState kv.2) (hs : GoodState s) :
    ∀ kv ∈ setInstanceState t x s, GoodState kv.2 := by
  intro kv hkv
  unfold setInstanceState at hkv
  by_cases hp : (tableLookup t x).isSome = true
  · rw [if_pos hp] at hkv
    obtain ⟨kv2, hmem, he⟩ := List.mem_map.mp hkv
    by_cases hk : kv2.1 = x
    · rw [if_pos hk] at he
      rw [← he]
      exact hs
    · rw [if_neg hk] at he
      rw [← he]
      exact h kv2 hmem
  · simp only [Bool.not_eq_true] at hp
    simp only [hp, Bool.false_eq_true, if_false] at hkv
    rcases List.mem_append.mp hkv with h2 | h2
    · exact h kv h2
    · rw [List.mem_singleton.mp h2]
      exact hs

/-- Folding a batch of good driver writes keeps the keys duplicate-free. -/
theorem nodupkeys_foldl_set (ps : List (String × InstState)) :
    ∀ t : StateTable, NodupKeys t →
      NodupKeys (ps.foldl (fun t2 p => setInstanceState t2 p.1 p.2) t) := by
  induction ps with
  | nil => intro t h; exact h
  | cons p ps2 ih =>
    intro t h
    rw [List.foldl_cons]
    exact ih _ (nodupkeys_set t p.1 p.2 h)

/-- Folding a batch of good driver writes keeps all record values good. -/
theorem goodvals_foldl_set (ps : List (String × InstState))
    (hps : ∀ p ∈ ps, GoodState p.2) :
    ∀ t : StateTable, (∀ kv ∈ t, GoodState kv.2) →
      ∀ kv ∈ ps.foldl (fun t2 p => setInstanceState t2 p.1 p.2) t, GoodState kv.2 := by
  induction ps with
  | nil => intro t h; exact h
  | cons p ps2 ih =>
    intro t h
    rw [List.foldl_cons]
    exact ih (fun q hq => hps q (List.mem_cons_of_mem _ hq)) _
      (goodvals_set t p.1 p.2 h (hps p (List.mem_cons_self _ _)))

/-- process_new_desired_state keeps the table well-formed: duplicate-free keys
and record values in the good set, provided the desired state is running or
stopped. -/
theorem pnds_store_invariant (svc : ServiceDriver) (rs : RegionState) (inst : Instance)
    (D : InstState) (dt : Option String) (last : InstState) (retain : Bool)
    (hD : D = InstState.running ∨ D = InstState.stopped)
    (h1 : NodupKeys rs.store) (h2 : ∀ kv ∈ rs.store, GoodState kv.2) :
    NodupKeys (process_new_desired_state svc rs inst D dt last retain).store ∧
    (∀ kv ∈ (process_new_desired_state svc rs inst D dt last retain).store,
      GoodState kv.2) := by
  unfold process_new_desired_state
  by_cases hr : last = InstState.retainRunning
  · rw [if_pos hr]
    by_cases hd1 : D = InstState.running
    · rw [if_pos hd1]
      exact ⟨h1, h2⟩
    · rw [if_neg hd1]
      by_cases hd2 : D = InstState.stopped
      · rw [if_pos hd2]
        exact ⟨nodupkeys_set _ _ _ h1, goodvals_set _ _ _ h2 (Or.inr (Or.inl rfl))⟩
      · rcases hD with h | h
        · exact absurd h hd1
        · exact absurd h hd2
  · rw [if_neg hr]
    by_cases hd1 : D = InstState.running
    · rw [if_pos hd1]
      by_cases hb : inst.is_running = false
      · rw [if_pos hb]
        by_cases hc1 : need_and_can_resize inst dt = true
        · rw [if_pos hc1]
          by_cases hc2 : svc.resize_ok inst (dt.getD inst.instancetype) = true
          · rw [if_pos hc2]
            exact ⟨h1, h2⟩
          · rw [if_neg hc2]
            exact ⟨h1, h2⟩
        · rw [if_neg hc1]
          exact ⟨h1, h2⟩
      · rw [if_neg hb]
        by_cases hl : last = InstState.stopped
        · rw [if_pos hl]
          by_cases hrt : retain = true
          · rw [if_pos hrt]
            exact ⟨nodupkeys_set _ _ _ h1, goodvals_set _ _ _ h2 (Or.inr (Or.inr rfl))⟩
          · rw [if_neg hrt]
            exact ⟨nodupkeys_set _ _ _ h1, goodvals_set _ _ _ h2 (Or.inl rfl)⟩
        · rw [if_neg hl]
          exact ⟨h1, h2⟩
    · rw [if_neg hd1]
      by_cases hd2 : D = InstState.stopped ∨ D = InstState.stoppedForResize
      · rw [if_pos hd2]
        by_cases hb : inst.is_running = true
        · rw [if_pos hb]
          by_cases hd3 : D = InstState.stoppedForResize
          · rw [if_pos hd3]
            exact ⟨h1, h2⟩
          · rw [if_neg hd3]
            exact ⟨h1, h2⟩
        · rw [if_neg hb]
          exact ⟨nodupkeys_set _ _ _ h1, goodvals_set _ _ _ h2 (Or.inr (Or.inl rfl))⟩
      · rcases hD with h | h
        · exact absurd h hd1
        · exact absurd (Or.inl h) hd2

/-- process_instance keeps the table well-formed whenever the schedule
evaluation for the instance yields running or stopped. -/
theorem pi_store_invariant (svc : ServiceDriver) (cfg : SchedulerConfig)
    (rs : RegionState) (i : Instance)
    (hDg : ∀ sched, cfg.get_schedule i.schedule_name = some sched →
      ((get_desired_state_and_type sched i).1 = InstState.running ∨
       (get_desired_state_and_type sched i).1 = InstState.stopped))
    (h1 : NodupKeys rs.store) (h2 : ∀ kv ∈ rs.store, GoodState kv.2) :
    NodupKeys (process_instance svc cfg rs i).store ∧
    (∀ kv ∈ (process_instance svc cfg rs i).store, GoodState kv.2) := by
  unfold process_instance
  by_cases hterm : i.is_terminated = true
  · rw [if_pos hterm]
    exact ⟨nodupkeys_filter _ _ h1, fun kv hkv => h2 kv (List.mem_of_mem_filter hkv)⟩
  · rw [if_neg hterm]
    cases hsch : cfg.get_schedule i.schedule_name with
    | none => exact ⟨h1, h2⟩
    | some sched =>
      have hD := hDg sched hsch
      dsimp only
      by_cases hu : getInstanceState rs.store i.id = InstState.unknown
      · rw [if_pos hu]
        by_cases hc : i.is_running = true ∧
            (get_desired_state_and_type sched i).1 = InstState.stopped
        · rw [if_pos hc]
          by_cases hsni : sched.stop_new_instances = false
          · rw [if_pos hsni]
            exact ⟨nodupkeys_set _ _ _ h1, goodvals_set _ _ _ h2 (Or.inr (Or.inl rfl))⟩
          · rw [if_neg hsni]
            exact pnds_store_invariant svc rs i _ _ _ _ hD h1 h2
        · rw [if_neg hc]
          exact pnds_store_invariant svc rs i _ _ _ _ hD h1 h2
      · rw [if_neg hu]
        by_cases henf : sched.enforced = true
        · rw [if_pos henf]
          by_cases hc : (i.is_running = true ∧
                (get_desired_state_and_type sched i).1 = InstState.stopped) ∨
              (i.is_running = false ∧
                (get_desired_state_and_type sched i).1 = InstState.running)
          · rw [if_pos hc]
            exact pnds_store_invariant svc rs i _ _ _ _ hD h1 h2
          · rw [if_neg hc]
            exact ⟨h1, h2⟩
        · rw [if_neg henf]
          by_cases hne : ¬(getInstanceState rs.store i.id
              = (get_desired_state_and_type sched i).1)
          · rw [if_pos hne]
            exact pnds_store_invariant svc rs i _ _ _ _ hD h1 h2
          · rw [if_neg hne]
            exact ⟨h1, h2⟩

/-- The per-instance fold keeps the table well-formed. -/
theorem fold_store_invariant (svc : ServiceDriver) (cfg : SchedulerConfig) :
    ∀ (l : List Instance) (rs : RegionState),
      (∀ i ∈ l, ∀ sched, cfg.get_schedule i.schedule_name = some sched →
        ((get_desired_state_and_type sched i).1 = InstState.running ∨
         (get_desired_state_and_type sched i).1 = InstState.stopped)) →
      NodupKeys rs.store → (∀ kv ∈ rs.store, GoodState kv.2) →
      NodupKeys (l.foldl (process_instance svc cfg) rs).store ∧
      (∀ kv ∈ (l.foldl (process_instance svc cfg) rs).store, GoodState kv.2) := by
  intro l
  induction l with
  | nil =>
    intro rs _ h1 h2
    exact ⟨h1, h2⟩
  | cons i l2 ih =>
    intro rs hDg h1 h2
    rw [List.foldl_cons]
    have hstep := pi_store_invariant svc cfg rs i
      (hDg i (List.mem_cons_self _ _)) h1 h2
    exact ih _ (fun j hj => hDg j (List.mem_cons_of_mem _ hj)) hstep.1 hstep.2

/-- The batch-commit phase keeps the table well-formed when the driver reports
only good states. -/
theorem sas_store_invariant (svc : ServiceDriver) (rs : RegionState)
    (hd1 : ∀ p ∈ svc.start_results rs.start_list, GoodState p.2)
    (hd2 : ∀ p ∈ svc.stop_results rs.stop_list, GoodState p.2)
    (h1 : NodupKeys rs.store) (h2 : ∀ kv ∈ rs.store, GoodState kv.2) :
    NodupKeys (start_and_stop_instances svc rs) ∧
    (∀ kv ∈ start_and_stop_instances svc rs, GoodState kv.2) := by
  unfold start_and_stop_instances
  by_cases hs1 : rs.start_list ≠ []
  · rw [if_pos hs1]
    by_cases hs2 : rs.stop_list ≠ []
    · rw [if_pos hs2]
      refine ⟨nodupkeys_foldl_set _ _ (nodupkeys_foldl_set _ _ h1), ?_⟩
      exact goodvals_foldl_set _ hd2 _ (goodvals_foldl_set _ hd1 _ h2)
    · rw [if_neg hs2]
      exact ⟨nodupkeys_foldl_set _ _ h1, goodvals_foldl_set _ hd1 _ h2⟩
  · rw [if_neg hs1]
    by_cases hs2 : rs.stop_list ≠ []
    · rw [if_pos hs2]
      exact ⟨nodupkeys_foldl_set _ _ h1, goodvals_foldl_set _ hd2 _ h2⟩
    · rw [if_neg hs2]
      exact ⟨h1, h2⟩

/-- One region pass keeps the table well-formed. -/
theorem region_store_invariant (svc : ServiceDriver) (cfg : SchedulerConfig)
    (t0 : StateTable) (instances : List Instance)
    (hDg : ∀ i ∈ instances, ∀ sched, cfg.get_schedule i.schedule_name = some sched →
      ((get_desired_state_and_type sched i).1 = InstState.running ∨
       (get_desired_state_and_type sched i).1 = InstState.stopped))
    (hd1 : ∀ l p, p ∈ svc.start_results l → GoodState p.2)
    (hd2 : ∀ l p, p ∈ svc.stop_results l → GoodState p.2)
    (h1 : NodupKeys t0) (h2 : ∀ kv ∈ t0, GoodState kv.2) :
    NodupKeys (process_region svc cfg t0 instances).1 ∧
    (∀ kv ∈ (process_region svc cfg t0 instances).1, GoodState kv.2) := by
  unfold process_region
  by_cases hnil : instances = []
  · rw [if_pos hnil]
    exact ⟨h1, h2⟩
  · rw [if_neg hnil]
    have hfold := fold_store_invariant svc cfg instances
      { store := t0, start_list := [], stop_list := [], resize_list := [] } hDg h1 h2
    have hsas := sas_store_invariant svc _ (hd1 _) (hd2 _) hfold.1 hfold.2
    exact ⟨nodupkeys_filter _ _ hsas.1,
      fun kv hkv => hsas.2 kv (List.mem_of_mem_filter hkv)⟩

/-- A pointwise backing-store property preserved by every region pass is
preserved by the region loop of one account. -/
theorem account_fold_backing_pointwise (svc : ServiceDriver) (cfg : SchedulerConfig)
    (acct : AccountRef) (P : String → String → StateTable → Prop)
    (hstep : ∀ a r t, P a r t →
      P a r (process_region svc cfg t (svc.get_schedulable_instances a r)).1) :
    ∀ (rl : List String) (acc : AccBuild),
      (∀ a r, P a r (acc.backing a r)) →
      ∀ a r, P a r ((rl.foldl (account_region_step svc cfg acct) acc).backing a r) := by
  intro rl
  induction rl with
  | nil =>
    intro acc hb a r
    exact hb a r
  | cons r0 rest ih =>
    intro acc hb a r
    rw [List.foldl_cons]
    apply ih
    intro a2 r2
    unfold account_region_step
    dsimp only
    by_cases hcase : a2 = acct.name ∧ r2 = r0
    · rw [if_pos hcase]
      obtain ⟨he1, he2⟩ := hcase
      subst he1
      subst he2
      exact hstep _ _ _ (hb _ _)
    · rw [if_neg hcase]
      exact hb a2 r2

/-- A pointwise backing-store property preserved by every region pass is
preserved by process_account. -/
theorem process_account_backing_pointwise (svc : ServiceDriver) (cfg : SchedulerConfig)
    (home : String) (acct : AccountRef) (P : String → String → StateTable → Prop)
    (hstep : ∀ a r t, P a r t →
      P a r (process_region svc cfg t (svc.get_schedulable_instances a r)).1)
    (backing : String → String → StateTable)
    (hb : ∀ a r, P a r (backing a r)) :
    ∀ a r, P a r ((process_account svc cfg home acct backing).2 a r) := by
  intro a r
  unfold process_account
  exact account_fold_backing_pointwise svc cfg acct P hstep _ _ hb a r

/-- A pointwise backing-store property preserved by every region pass is
preserved by the account loop of run. -/
theorem run_fold_backing_pointwise (svc : ServiceDriver) (cfg : SchedulerConfig)
    (home : String) (P : String → String → StateTable → Prop)
    (hstep : ∀ a r t, P a r t →
      P a r (process_region svc cfg t (svc.get_schedulable_instances a r)).1) :
    ∀ (l : List AccountRef)
      (init : List (String × AccountResult) × (String → String → StateTable)),
      (∀ a r, P a r (init.2 a r)) →
      ∀ a r, P a r ((l.foldl (run_account_step svc cfg home) init).2 a r) := by
  intro l
  induction l with
  | nil =>
    intro init hb a r
    exact hb a r
  | cons acct rest ih =>
    intro init hb a r
    rw [List.foldl_cons]
    apply ih
    intro a2 r2
    unfold run_account_step
    exact process_account_backing_pointwise svc cfg home acct P hstep init.2 hb a2 r2

/-- A pointwise backing-store property preserved by every region pass holds of
the backing store returned by run. -/
theorem run_backing_pointwise (svc : ServiceDriver) (cfg : SchedulerConfig)
    (lam : String) (sts : String → String → AssumeResult) (home : String)
    (backing : String → String → StateTable)
    (P : String → String → StateTable → Prop)
    (hstep : ∀ a r t, P a r t →
      P a r (process_region svc cfg t (svc.get_schedulable_instances a r)).1)
    (hb : ∀ a r, P a r (backing a r)) :
    ∀ a r, P a r ((run svc cfg lam sts home backing).2.1 a r) := by
  intro a r
  unfold run
  exact run_fold_backing_pointwise svc cfg home P hstep _ _ hb a r

/-- A table with duplicate-free keys has at most one record per key. -/
theorem countP_keys_le_one (t : StateTable) (x : String) (h : NodupKeys t) :
    t.countP (fun kv => kv.1 = x) ≤ 1 := by
  induction t with
  | nil => simp
  | cons kv rest ih =>
    unfold NodupKeys at h
    rw [List.map_cons, List.nodup_cons] at h
    obtain ⟨hni, h2⟩ := h
    rw [List.countP_cons]
    by_cases hk : kv.1 = x
    · have hz : rest.countP (fun kv2 => decide (kv2.1 = x)) = 0 := by
        apply List.countP_eq_zero.mpr
        intro kv2 hkv2
        simp only [decide_eq_true_eq]
        intro he
        have hmem := List.mem_map_of_mem Prod.fst hkv2
        rw [he] at hmem
        rw [← hk] at hmem
        exact hni hmem
      rw [hz]
      simp [hk]
    · have hle := ih h2
      simpa [hk] using hle

/-- C1 amended: after run returns, for every observed non-terminated
instance, the state store for its scope holds at most one record keyed by the
instance id, and any such record holds a value in {running, stopped,
retain_running} - provided schedule evaluation yields only running or
stopped, driver reports carry only good states, and the initial backing
records are well-formed. Existence of the record cannot be guaranteed (see
the counterexample). -/
theorem C1_at_most_one_good_record (svc : ServiceDriver) (cfg : SchedulerConfig)
    (lam : String) (sts : String → String → AssumeResult) (home : String)
    (backing : String → String → StateTable)
    (hDg : ∀ a r, ∀ i ∈ svc.get_schedulable_instances a r, ∀ sched,
      cfg.get_schedule i.schedule_name = some sched →
      ((get_desired_state_and_type sched i).1 = InstState.running ∨
       (get_desired_state_and_type sched i).1 = InstState.stopped))
    (hd1 : ∀ l p, p ∈ svc.start_results l → GoodState p.2)
    (hd2 : ∀ l p, p ∈ svc.stop_results l → GoodState p.2)
    (hb : ∀ a r, NodupKeys (backing a r) ∧ ∀ kv ∈ backing a r, GoodState kv.2)
    (a r : String) (i : Instance)
    (_hobs : i ∈ svc.get_schedulable_instances a r)
    (_hterm : i.is_terminated = false) :
    ((run svc cfg lam sts home backing).2.1 a r).countP (fun kv => kv.1 = i.id) ≤ 1 ∧
    (∀ kv ∈ (run svc cfg lam sts home backing).2.1 a r, kv.1 = i.id →
      GoodState kv.2) := by
  have hrun := run_backing_pointwise svc cfg lam sts home backing
    (fun _ _ t => NodupKeys t ∧ ∀ kv ∈ t, GoodState kv.2)
    (fun a2 r2 t ht => region_store_invariant svc cfg t
      (svc.get_schedulable_instances a2 r2) (hDg a2 r2) hd1 hd2 ht.1 ht.2)
    hb a r
  exact ⟨countP_keys_le_one _ _ hrun.1, fun kv hkv _ => hrun.2 kv hkv⟩

/-- Witness for C1: the sch3 fixture satisfies all hypotheses. -/
theorem C1_at_most_one_good_record_witness :
    ((run exSvcC3 exCfgC3 "111" (fun _ _ => AssumeResult.ok) "r1"
        (fun _ _ => [])).2.1 "111" "r1").countP (fun kv => kv.1 = "i-c3") ≤ 1 ∧
    (∀ kv ∈ (run exSvcC3 exCfgC3 "111" (fun _ _ => AssumeResult.ok) "r1"
        (fun _ _ => [])).2.1 "111" "r1", kv.1 = "i-c3" → GoodState kv.2) :=
  C1_at_most_one_good_record exSvcC3 exCfgC3 "111" (fun _ _ => AssumeResult.ok) "r1"
    (fun _ _ => [])
    (by
      intro a r i hi sched hsch
      have hi2 : i = exInstC3 := by simpa [exSvcC3] using hi
      subst hi2
      rw [show exCfgC3.get_schedule exInstC3.schedule_name = some exSchedC3 from rfl] at hsch
      injection hsch with hs2
      subst hs2
      exact Or.inr rfl)
    (by
      intro l p hp
      obtain ⟨i2, _, hpe⟩ := List.mem_map.mp hp
      rw [← hpe]
      exact Or.inl rfl)
    (by
      intro l p hp
      obtain ⟨i2, _, hpe⟩ := List.mem_map.mp hp
      rw [← hpe]
      exact Or.inr (Or.inl rfl))
    (by
      intro a r
      constructor
      · exact List.nodup_nil
      · intro kv hkv
        simp at hkv)
    "111" "r1" exInstC3 (by decide) rfl

/-- Counterexample for C1 as stated: a first-sighted running instance whose
desired state is running is observed and not terminated, yet after run no
record at all exists for it, so the store does not contain exactly one record
for every observed non-terminated instance. -/
theorem C1_counterexample_no_record :
    exInstC4.is_terminated = false ∧
    exInstC4 ∈ exSvcC4.get_schedulable_instances "111" "r1" ∧
    tableLookup ((run exSvcC4 exCfgC4 "111" (fun _ _ => AssumeResult.ok) "r1"
        (fun _ _ => [])).2.1 "111" "r1") "i-c4" = none := by
  refine ⟨rfl, ?_, ?_⟩ <;> decide

/-- pnds_sim describes _process_new_desired_state exactly: record read-back
for the processed id, start and stop membership, and absence of resizes when
no start is taken. -/
theorem pnds_sim_spec (svc : ServiceDriver) (rs : RegionState) (inst : Instance)
    (D : InstState) (dt : Option String) (last : InstState) (retain : Bool)
    (hlast : getInstanceState rs.store inst.id = last) :
    getInstanceState (process_new_desired_state svc rs inst D dt last retain).store inst.id
      = (pnds_sim inst D last retain).1 ∧
    (process_new_desired_state svc rs inst D dt last retain).start_list
      = rs.start_list ++ (if (pnds_sim inst D last retain).2.1 = true then [inst] else []) ∧
    ((process_new_desired_state svc rs inst D dt last retain).stop_list.map (fun j => j.id))
      = rs.stop_list.map (fun j => j.id)
        ++ (if (pnds_sim inst D last retain).2.2 = true then [inst.id] else []) ∧
    ((pnds_sim inst D last retain).2.1 = false →
      (process_new_desired_state svc rs inst D dt last retain).resize_list
        = rs.resize_list) := by
  unfold process_new_desired_state pnds_sim
  by_cases h1 : last = InstState.retainRunning
  · simp only [if_pos h1]
    by_cases h2 : D = InstState.running
    · simp only [if_pos h2]
      refine ⟨?_, ?_, ?_, ?_⟩ <;> simp [hlast]
    · simp only [if_neg h2]
      by_cases h3 : D = InstState.stopped
      · simp only [if_pos h3]
        refine ⟨?_, ?_, ?_, ?_⟩ <;> simp [getInstanceState_set_self]
      · simp only [if_neg h3]
        refine ⟨?_, ?_, ?_, ?_⟩ <;> simp [getInstanceState_set_self]
  · simp only [if_neg h1]
    by_cases h2 : D = InstState.running
    · simp only [if_pos h2]
      by_cases h3 : inst.is_running = false
      · simp only [if_pos h3]
        by_cases h4 : need_and_can_resize inst dt = true
        · simp only [if_pos h4]
          by_cases h5 : svc.resize_ok inst (dt.getD inst.instancetype) = true
          · simp only [if_pos h5]
            refine ⟨?_, ?_, ?_, ?_⟩ <;> simp [hlast]
          · simp only [if_neg h5]
            refine ⟨?_, ?_, ?_, ?_⟩ <;> simp [hlast]
        · simp only [if_neg h4]
          refine ⟨?_, ?_, ?_, ?_⟩ <;> simp [hlast]
      · simp only [if_neg h3]
        by_cases h4 : last = InstState.stopped
        · simp only [if_pos h4]
          by_cases h5 : retain = true
          · simp only [if_pos h5]
            refine ⟨?_, ?_, ?_, ?_⟩ <;> simp [getInstanceState_set_self]
          · simp only [if_neg h5]
            refine ⟨?_, ?_, ?_, ?_⟩ <;> simp [getInstanceState_set_self]
        · simp only [if_neg h4]
          refine ⟨?_, ?_, ?_, ?_⟩ <;> simp [hlast]
    · simp only [if_neg h2]
      by_cases h3 : D = InstState.stopped ∨ D = InstState.stoppedForResize
      · simp only [if_pos h3]
        by_cases h4 : inst.is_running = true
        · simp only [if_pos h4]
          by_cases h5 : D = InstState.stoppedForResize
          · simp only [if_pos h5]
            refine ⟨?_, ?_, ?_, ?_⟩ <;> simp [hlast]
          · simp only [if_neg h5]
            refine ⟨?_, ?_, ?_, ?_⟩ <;> simp [hlast]
        · simp only [if_neg h4]
          refine ⟨?_, ?_, ?_, ?_⟩ <;> simp [getInstanceState_set_self]
      · simp only [if_neg h3]
        refine ⟨?_, ?_, ?_, ?_⟩ <;> simp [getInstanceState_set_self]

/-- step_sim describes process_instance exactly: record read-back for the
processed id, start and stop membership, and absence of resizes when no
start is taken. -/
theorem step_sim_spec (svc : ServiceDriver) (cfg : SchedulerConfig)
    (rs : RegionState) (i : Instance) :
    getInstanceState (process_instance svc cfg rs i).store i.id
      = (step_sim cfg i (getInstanceState rs.store i.id)).1 ∧
    (process_instance svc cfg rs i).start_list
      = rs.start_list
        ++ (if (step_sim cfg i (getInstanceState rs.store i.id)).2.1 = true then [i] else []) ∧
    ((process_instance svc cfg rs i).stop_list.map (fun j => j.id))
      = rs.stop_list.map (fun j => j.id)
        ++ (if (step_sim cfg i (getInstanceState rs.store i.id)).2.2 = true
            then [i.id] else []) ∧
    ((step_sim cfg i (getInstanceState rs.store i.id)).2.1 = false →
      (process_instance svc cfg rs i).resize_list = rs.resize_list) := by
  unfold process_instance step_sim
  by_cases hterm : i.is_terminated = true
  · simp only [if_pos hterm]
    refine ⟨?_, ?_, ?_, ?_⟩ <;> simp [getInstanceState_delete_self]
  · simp only [if_neg hterm]
    cases hsch : cfg.get_schedule i.schedule_name with
    | none => refine ⟨?_, ?_, ?_, ?_⟩ <;> simp
    | some sched =>
      dsimp only
      by_cases hu : getInstanceState rs.store i.id = InstState.unknown
      · simp only [if_pos hu]
        by_cases hc : i.is_running = true ∧
            (get_desired_state_and_type sched i).1 = InstState.stopped
        · simp only [if_pos hc]
          by_cases hsni : sched.stop_new_instances = false
          · simp only [if_pos hsni]
            refine ⟨?_, ?_, ?_, ?_⟩ <;> simp [getInstanceState_set_self]
          · simp only [if_neg hsni]
            exact pnds_sim_spec svc rs i _ _ _ _ rfl
        · simp only [if_neg hc]
          exact pnds_sim_spec svc rs i _ _ _ _ rfl
      · simp only [if_neg hu]
        by_cases henf : sched.enforced = true
        · simp only [if_pos henf]
          by_cases hc : (i.is_running = true ∧
                (get_desired_state_and_type sched i).1 = InstState.stopped) ∨
              (i.is_running = false ∧
                (get_desired_state_and_type sched i).1 = InstState.running)
          · simp only [if_pos hc]
            exact pnds_sim_spec svc rs i _ _ _ _ rfl
          · simp only [if_neg hc]
            refine ⟨?_, ?_, ?_, ?_⟩ <;> simp
        · simp only [if_neg henf]
          by_cases hne : ¬(getInstanceState rs.store i.id
              = (get_desired_state_and_type sched i).1)
          · simp only [if_pos hne]
            exact pnds_sim_spec svc rs i _ _ _ _ rfl
          · simp only [if_neg hne]
            refine ⟨?_, ?_, ?_, ?_⟩ <;> simp

/-- The per-instance fold does not change records of ids it does not process. -/
theorem fold_store_frame (svc : ServiceDriver) (cfg : SchedulerConfig) :
    ∀ (l : List Instance) (rs : RegionState) (x : String),
      (∀ i ∈ l, ¬(x = i.id)) →
      getInstanceState (l.foldl (process_instance svc cfg) rs).store x
        = getInstanceState rs.store x := by
  intro l
  induction l with
  | nil => intro rs x _; rfl
  | cons j l2 ih =>
    intro rs x hx
    rw [List.foldl_cons]
    rw [ih _ x (fun i2 hi2 => hx i2 (List.mem_cons_of_mem _ hi2))]
    exact pi_store_frame svc cfg rs j x (hx j (List.mem_cons_self _ _))

/-- After the per-instance fold, the record of each processed instance is the
step_sim read-back of its initial record, given pairwise distinct ids. -/
theorem fold_sim_entry (svc : ServiceDriver) (cfg : SchedulerConfig) :
    ∀ (l : List Instance) (rs : RegionState),
      ((l.map (fun i => i.id)).Nodup) → ∀ i ∈ l,
      getInstanceState (l.foldl (process_instance svc cfg) rs).store i.id
        = (step_sim cfg i (getInstanceState rs.store i.id)).1 := by
  intro l
  induction l with
  | nil => intro rs _ i hi; simp at hi
  | cons j l2 ih =>
    intro rs hnd i hi
    rw [List.foldl_cons]
    rw [List.map_cons, List.nodup_cons] at hnd
    obtain ⟨hni, hnd2⟩ := hnd
    rcases List.mem_cons.mp hi with he | hi2
    · subst he
      rw [fold_store_frame svc cfg l2 _ i.id
        (fun i2 hi2 he2 => hni (he2 ▸ List.mem_map_of_mem _ hi2))]
      exact (step_sim_spec svc cfg rs i).1
    · have hne : ¬(i.id = j.id) := by
        intro he
        exact hni (he ▸ List.mem_map_of_mem _ hi2)
      rw [ih _ hnd2 i hi2, pi_store_frame svc cfg rs j i.id hne]

/-- The per-instance fold does not add ids it does not process to the start
batch. -/
theorem fold_start_ids_frame (svc : ServiceDriver) (cfg : SchedulerConfig) :
    ∀ (l : List Instance) (rs : RegionState) (x : String),
      (∀ i ∈ l, ¬(x = i.id)) →
      (x ∈ (l.foldl (process_instance svc cfg) rs).start_list.map (fun j => j.id) ↔
       x ∈ rs.start_list.map (fun j => j.id)) := by
  intro l
  induction l with
  | nil => intro rs x _; exact Iff.rfl
  | cons j l2 ih =>
    intro rs x hx
    rw [List.foldl_cons]
    rw [ih _ x (fun i2 hi2 => hx i2 (List.mem_cons_of_mem _ hi2))]
    rw [(step_sim_spec svc cfg rs j).2.1]
    have hxj := hx j (List.mem_cons_self _ _)
    by_cases hb : (step_sim cfg j (getInstanceState rs.store j.id)).2.1 = true
    · simp [hb, hxj]
    · simp [hb]

/-- The per-instance fold does not add ids it does not process to the stop
batch. -/
theorem fold_stop_ids_frame (svc : ServiceDriver) (cfg : SchedulerConfig) :
    ∀ (l : List Instance) (rs : RegionState) (x : String),
      (∀ i ∈ l, ¬(x = i.id)) →
      (x ∈ (l.foldl (process_instance svc cfg) rs).stop_list.map (fun j => j.id) ↔
       x ∈ rs.stop_list.map (fun j => j.id)) := by
  intro l
  induction l with
  | nil => intro rs x _; exact Iff.rfl
  | cons j l2 ih =>
    intro rs x hx
    rw [List.foldl_cons]
    rw [ih _ x (fun i2 hi2 => hx i2 (List.mem_cons_of_mem _ hi2))]
    rw [(step_sim_spec svc cfg rs j).2.2.1]
    have hxj := hx j (List.mem_cons_self _ _)
    by_cases hb : (step_sim cfg j (getInstanceState rs.store j.id)).2.2 = true
    · simp [hb, hxj]
    · simp [hb]

/-- An instance processed by the fold ends in the start batch exactly when its
step takes the start action, given pairwise distinct ids. -/
theorem fold_start_ids_mem (svc : ServiceDriver) (cfg : SchedulerConfig) :
    ∀ (l : List Instance) (rs : RegionState),
      ((l.map (fun i => i.id)).Nodup) → ∀ i ∈ l,
      (i.id ∈ (l.foldl (process_instance svc cfg) rs).start_list.map (fun j => j.id) ↔
       i.id ∈ rs.start_list.map (fun j => j.id) ∨
        (step_sim cfg i (getInstanceState rs.store i.id)).2.1 = true) := by
  intro l
  induction l with
  | nil => intro rs _ i hi; simp at hi
  | cons j l2 ih =>
    intro rs hnd i hi
    rw [List.foldl_cons]
    rw [List.map_cons, List.nodup_cons] at hnd
    obtain ⟨hni, hnd2⟩ := hnd
    rcases List.mem_cons.mp hi with he | hi2
    · subst he
      rw [fold_start_ids_frame svc cfg l2 _ i.id
        (fun i2 hi2 he2 => hni (he2 ▸ List.mem_map_of_mem _ hi2))]
      rw [(step_sim_spec svc cfg rs i).2.1]
      by_cases hb : (step_sim cfg i (getInstanceState rs.store i.id)).2.1 = true
      · simp [hb]
      · simp [hb]
    · have hne : ¬(i.id = j.id) := by
        intro he
        exact hni (he ▸ List.mem_map_of_mem _ hi2)
      rw [ih _ hnd2 i hi2]
      rw [pi_store_frame svc cfg rs j i.id hne]
      rw [(step_sim_spec svc cfg rs j).2.1]
      by_cases hb : (step_sim cfg j (getInstanceState rs.store j.id)).2.1 = true
      · simp [hb, hne]
      · simp [hb]

/-- An instance processed by the fold ends in the stop batch exactly when its
step takes the stop action, given pairwise distinct ids. -/
theorem fold_stop_ids_mem (svc : ServiceDriver) (cfg : SchedulerConfig) :
    ∀ (l : List Instance) (rs : RegionState),
      ((l.map (fun i => i.id)).Nodup) → ∀ i ∈ l,
      (i.id ∈ (l.foldl (process_instance svc cfg) rs).stop_list.map (fun j => j.id) ↔
       i.id ∈ rs.stop_list.map (fun j => j.id) ∨
        (step_sim cfg i (getInstanceState rs.store i.id)).2.2 = true) := by
  intro l
  induction l with
  | nil => intro rs _ i hi; simp at hi
  | cons j l2 ih =>
    intro rs hnd i hi
    rw [List.foldl_cons]
    rw [List.map_cons, List.nodup_cons] at hnd
    obtain ⟨hni, hnd2⟩ := hnd
    rcases List.mem_cons.mp hi with he | hi2
    · subst he
      rw [fold_stop_ids_frame svc cfg l2 _ i.id
        (fun i2 hi2 he2 => hni (he2 ▸ List.mem_map_of_mem _ hi2))]
      rw [(step_sim_spec svc cfg rs i).2.2.1]
      by_cases hb : (step_sim cfg i (getInstanceState rs.store i.id)).2.2 = true
      · simp [hb]
      · simp [hb]
    · have hne : ¬(i.id = j.id) := by
        intro he
        exact hni (he ▸ List.mem_map_of_mem _ hi2)
      rw [ih _ hnd2 i hi2]
      rw [pi_store_frame svc cfg rs j i.id hne]
      rw [(step_sim_spec svc cfg rs j).2.2.1]
      by_cases hb : (step_sim cfg j (getInstanceState rs.store j.id)).2.2 = true
      · simp [hb, hne]
      · simp [hb]

/-- When every instance of the fold is quiet against the starting table, the
three batches come out unchanged. -/
theorem fold_lists_quiet (svc : ServiceDriver) (cfg : SchedulerConfig) :
    ∀ (l : List Instance) (rs : RegionState),
      ((l.map (fun i => i.id)).Nodup) →
      (∀ i ∈ l, (step_sim cfg i (getInstanceState rs.store i.id)).2.1 = false ∧
        (step_sim cfg i (getInstanceState rs.store i.id)).2.2 = false) →
      (l.foldl (process_instance svc cfg) rs).start_list = rs.start_list ∧
      (l.foldl (process_instance svc cfg) rs).stop_list.map (fun j => j.id)
        = rs.stop_list.map (fun j => j.id) ∧
      (l.foldl (process_instance svc cfg) rs).resize_list = rs.resize_list := by
  intro l
  induction l with
  | nil => intro rs _ _; exact ⟨rfl, rfl, rfl⟩
  | cons j l2 ih =>
    intro rs hnd hq
    rw [List.foldl_cons]
    rw [List.map_cons, List.nodup_cons] at hnd
    obtain ⟨hni, hnd2⟩ := hnd
    obtain ⟨hqj1, hqj2⟩ := hq j (List.mem_cons_self _ _)
    have hstart : (process_instance svc cfg rs j).start_list = rs.start_list := by
      rw [(step_sim_spec svc cfg rs j).2.1, hqj1]
      simp
    have hstop : (process_instance svc cfg rs j).stop_list.map (fun j2 => j2.id)
        = rs.stop_list.map (fun j2 => j2.id) := by
      rw [(step_sim_spec svc cfg rs j).2.2.1, hqj2]
      simp
    have hres : (process_instance svc cfg rs j).resize_list = rs.resize_list :=
      (step_sim_spec svc cfg rs j).2.2.2 hqj1
    have hq2 : ∀ i ∈ l2,
        (step_sim cfg i (getInstanceState (process_instance svc cfg rs j).store i.id)).2.1
          = false ∧
        (step_sim cfg i (getInstanceState (process_instance svc cfg rs j).store i.id)).2.2
          = false := by
      intro i hi2
      have hne : ¬(i.id = j.id) := by
        intro he
        exact hni (he ▸ List.mem_map_of_mem _ hi2)
      rw [pi_store_frame svc cfg rs j i.id hne]
      exact hq i (List.mem_cons_of_mem _ hi2)
    obtain ⟨ha, hb, hc⟩ := ih _ hnd2 hq2
    exact ⟨ha.trans hstart, hb.trans hstop, hc.trans hres⟩

/-- A fold of driver writes leaves keys it does not write unchanged. -/
theorem foldl_set_write_frame (ps : List (String × InstState)) :
    ∀ (t : StateTable) (x : String), (∀ p ∈ ps, ¬(p.1 = x)) →
      tableLookup (ps.foldl (fun t2 p => setInstanceState t2 p.1 p.2) t) x
        = tableLookup t x := by
  induction ps with
  | nil => intro t x _; rfl
  | cons p ps2 ih =>
    intro t x hx
    rw [List.foldl_cons]
    rw [ih _ x (fun q hq => hx q (List.mem_cons_of_mem _ hq))]
    exact tableLookup_set_ne t p.1 x p.2
      (fun he => hx p (List.mem_cons_self _ _) he.symm)

/-- A fold of driver writes that all agree on the value of a written key makes
that key read the value. -/
theorem foldl_set_write_self (ps : List (String × InstState)) :
    ∀ (t : StateTable) (x : String) (s : InstState),
      (x, s) ∈ ps → (∀ p ∈ ps, p.1 = x → p.2 = s) →
      tableLookup (ps.foldl (fun t2 p => setInstanceState t2 p.1 p.2) t) x
        = some s := by
  induction ps with
  | nil => intro t x s h _; simp at h
  | cons p ps2 ih =>
    intro t x s hmem hall
    rw [List.foldl_cons]
    by_cases htail : x ∈ ps2.map Prod.fst
    · obtain ⟨p2, hp2, hpe⟩ := List.mem_map.mp htail
      have hv : p2.2 = s := hall p2 (List.mem_cons_of_mem _ hp2) hpe
      have hp2e : p2 = (x, s) := by
        rw [← hpe, ← hv]
      have hmem2 : (x, s) ∈ ps2 := by
        rw [← hp2e]
        exact hp2
      exact ih _ x s hmem2 (fun q hq => hall q (List.mem_cons_of_mem _ hq))
    · have hkey : p.1 = x := by
        rcases List.mem_cons.mp hmem with he | he
        · rw [← he]
        · exact absurd (List.mem_map_of_mem Prod.fst he) htail
      have hv : p.2 = s := hall p (List.mem_cons_self _ _) hkey
      have hframe : ∀ q ∈ ps2, ¬(q.1 = x) := by
        intro q hq he
        exact htail (he ▸ List.mem_map_of_mem Prod.fst hq)
      rw [foldl_set_write_frame ps2 _ x hframe]
      rw [hkey, hv]
      exact tableLookup_set_self t x s

/-- Cleanup keeps the reading of observed ids. -/
theorem gis_cleanup_mem (t : StateTable) (observed : List String) (x : String)
    (h : x ∈ observed) :
    getInstanceState (cleanupStates t observed) x = getInstanceState t x := by
  unfold getInstanceState
  rw [tableLookup_cleanup, if_pos h]

/-- Entry read-back through the batch-commit phase when the driver reports
started instances as running and stopped instances as stopped. -/
theorem sas_entry (svc : ServiceDriver) (rs : RegionState)
    (hd1 : svc.start_results rs.start_list
      = rs.start_list.map (fun j => (j.id, InstState.running)))
    (hd2 : svc.stop_results rs.stop_list
      = rs.stop_list.map (fun j => (j.id, InstState.stopped)))
    (x : String) :
    getInstanceState (start_and_stop_instances svc rs) x =
      (if x ∈ rs.stop_list.map (fun j => j.id) then InstState.stopped
       else if x ∈ rs.start_list.map (fun j => j.id) then InstState.running
       else getInstanceState rs.store x) := by
  unfold start_and_stop_instances
  rw [hd1, hd2]
  have ht1 : getInstanceState (if rs.start_list ≠ [] then
        (rs.start_list.map (fun j => (j.id, InstState.running))).foldl
          (fun t2 p => setInstanceState t2 p.1 p.2) rs.store
      else rs.store) x
      = (if x ∈ rs.start_list.map (fun j => j.id) then InstState.running
         else getInstanceState rs.store x) := by
    by_cases hsm1 : x ∈ rs.start_list.map (fun j => j.id)
    · rw [if_pos hsm1]
      have hne1 : rs.start_list ≠ [] := by
        intro he
        rw [he] at hsm1
        simp at hsm1
      rw [if_pos hne1]
      obtain ⟨j, hj, hje⟩ := List.mem_map.mp hsm1
      have hpair : (x, InstState.running)
          ∈ rs.start_list.map (fun j2 => (j2.id, InstState.running)) := by
        refine List.mem_map.mpr ⟨j, hj, ?_⟩
        rw [hje]
      have hall : ∀ p ∈ rs.start_list.map (fun j2 => (j2.id, InstState.running)),
          p.1 = x → p.2 = InstState.running := by
        intro p hp _
        obtain ⟨j2, _, hpe⟩ := List.mem_map.mp hp
        rw [← hpe]
      exact lookup_to_gis _ _ _ (foldl_set_write_self _ _ x InstState.running hpair hall)
    · rw [if_neg hsm1]
      have hframe1 : ∀ p ∈ rs.start_list.map (fun j2 => (j2.id, InstState.running)),
          ¬(p.1 = x) := by
        intro p hp he
        obtain ⟨j2, hj2, hpe⟩ := List.mem_map.mp hp
        apply hsm1
        refine List.mem_map.mpr ⟨j2, hj2, ?_⟩
        rw [← he, ← hpe]
      by_cases hne1 : rs.start_list ≠ []
      · rw [if_pos hne1]
        unfold getInstanceState
        rw [foldl_set_write_frame _ _ x hframe1]
      · rw [if_neg hne1]
  by_cases hsm : x ∈ rs.stop_list.map (fun j => j.id)
  · rw [if_pos hsm]
    have hne2 : rs.stop_list ≠ [] := by
      intro he
      rw [he] at hsm
      simp at hsm
    rw [if_pos hne2]
    obtain ⟨j, hj, hje⟩ := List.mem_map.mp hsm
    have hpair : (x, InstState.stopped)
        ∈ rs.stop_list.map (fun j2 => (j2.id, InstState.stopped)) := by
      refine List.mem_map.mpr ⟨j, hj, ?_⟩
      rw [hje]
    have hall : ∀ p ∈ rs.stop_list.map (fun j2 => (j2.id, InstState.stopped)),
        p.1 = x → p.2 = InstState.stopped := by
      intro p hp _
      obtain ⟨j2, _, hpe⟩ := List.mem_map.mp hp
      rw [← hpe]
    exact lookup_to_gis _ _ _ (foldl_set_write_self _ _ x InstState.stopped hpair hall)
  · rw [if_neg hsm]
    have hframe2 : ∀ p ∈ rs.stop_list.map (fun j2 => (j2.id, InstState.stopped)),
        ¬(p.1 = x) := by
      intro p hp he
      obtain ⟨j2, hj2, hpe⟩ := List.mem_map.mp hp
      apply hsm
      refine List.mem_map.mpr ⟨j2, hj2, ?_⟩
      rw [← he, ← hpe]
    by_cases hne2 : rs.stop_list ≠ []
    · rw [if_pos hne2]
      unfold getInstanceState
      rw [foldl_set_write_frame _ _ x hframe2]
      exact ht1
    · rw [if_neg hne2]
      exact ht1

/-- The record of an observed instance after one region pass, as a function
of its record before the pass, for drivers reporting started instances as
running and stopped instances as stopped. -/
theorem region_entry_outcome (svc : ServiceDriver) (cfg : SchedulerConfig)
    (t : StateTable) (instances : List Instance)
    (hnd : (instances.map (fun i => i.id)).Nodup)
    (hd1 : ∀ l, svc.start_results l = l.map (fun j => (j.id, InstState.running)))
    (hd2 : ∀ l, svc.stop_results l = l.map (fun j => (j.id, InstState.stopped)))
    (i : Instance) (hi : i ∈ instances) :
    getInstanceState (process_region svc cfg t instances).1 i.id =
      (if (step_sim cfg i (getInstanceState t i.id)).2.2 = true then InstState.stopped
       else if (step_sim cfg i (getInstanceState t i.id)).2.1 = true then InstState.running
       else (step_sim cfg i (getInstanceState t i.id)).1) := by
  have hne : ¬(instances = []) := by
    intro he
    rw [he] at hi
    simp at hi
  unfold process_region
  rw [if_neg hne]
  dsimp only
  rw [gis_cleanup_mem _ _ _ (List.mem_map_of_mem _ hi)]
  rw [sas_entry svc _ (hd1 _) (hd2 _) i.id]
  have hstart := fold_start_ids_mem svc cfg instances
    { store := t, start_list := [], stop_list := [], resize_list := [] } hnd i hi
  have hstop := fold_stop_ids_mem svc cfg instances
    { store := t, start_list := [], stop_list := [], resize_list := [] } hnd i hi
  have hentry := fold_sim_entry svc cfg instances
    { store := t, start_list := [], stop_list := [], resize_list := [] } hnd i hi
  simp only [List.map_nil, List.not_mem_nil, false_or] at hstart hstop
  by_cases f2 : (step_sim cfg i (getInstanceState t i.id)).2.2 = true
  · rw [if_pos (hstop.mpr f2), if_pos f2]
  · rw [if_neg (fun hmem => f2 (hstop.mp hmem)), if_neg f2]
    by_cases f1 : (step_sim cfg i (getInstanceState t i.id)).2.1 = true
    · rw [if_pos (hstart.mpr f1), if_pos f1]
    · rw [if_neg (fun hmem => f1 (hstart.mp hmem)), if_neg f1]
      exact hentry

/-- A region pass over a quiet table produces empty outputs. -/
theorem region_out_empty (svc : ServiceDriver) (cfg : SchedulerConfig)
    (t : StateTable) (instances : List Instance)
    (hnd : (instances.map (fun i => i.id)).Nodup)
    (hq : ∀ i ∈ instances, (step_sim cfg i (getInstanceState t i.id)).2.1 = false ∧
      (step_sim cfg i (getInstanceState t i.id)).2.2 = false) :
    (process_region svc cfg t instances).2.started = [] ∧
    (process_region svc cfg t instances).2.stopped = [] ∧
    (process_region svc cfg t instances).2.resized = [] := by
  by_cases hne : instances = []
  · subst hne
    unfold process_region
    exact ⟨rfl, rfl, rfl⟩
  · unfold process_region
    rw [if_neg hne]
    dsimp only
    obtain ⟨ha, hb, hc⟩ := fold_lists_quiet svc cfg instances
      { store := t, start_list := [], stop_list := [], resize_list := [] } hnd
      (fun i hi => hq i hi)
    refine ⟨?_, ?_, ?_⟩
    · rw [ha]
      rfl
    · have hstop : (instances.foldl (process_instance svc cfg)
          { store := t, start_list := [], stop_list := [], resize_list := [] }).stop_list
          = [] := by
        have h2 := hb
        simp at h2
        exact h2
      rw [hstop]
      rfl
    · rw [hc]
      rfl

/-- QPOST: the table saved by a region pass is quiet for every instance the
driver yields there, whatever the incoming table, for non-enforced schedules
whose evaluation yields running, stopped or any. -/
theorem region_quiet (svc : ServiceDriver) (cfg : SchedulerConfig)
    (t : StateTable) (instances : List Instance)
    (hnd : (instances.map (fun i => i.id)).Nodup)
    (hd1 : ∀ l, svc.start_results l = l.map (fun j => (j.id, InstState.running)))
    (hd2 : ∀ l, svc.stop_results l = l.map (fun j => (j.id, InstState.stopped)))
    (henf : ∀ i ∈ instances, ∀ sched, cfg.get_schedule i.schedule_name = some sched →
      sched.enforced = false)
    (hDset : ∀ i ∈ instances, ∀ sched, cfg.get_schedule i.schedule_name = some sched →
      ((get_desired_state_and_type sched i).1 = InstState.running ∨
       (get_desired_state_and_type sched i).1 = InstState.stopped ∨
       (get_desired_state_and_type sched i).1 = InstState.anyState))
    (i : Instance) (hi : i ∈ instances) :
    (step_sim cfg i (getInstanceState (process_region svc cfg t instances).1 i.id)).2.1
      = false ∧
    (step_sim cfg i (getInstanceState (process_region svc cfg t instances).1 i.id)).2.2
      = false := by
  rw [region_entry_outcome svc cfg t instances hnd hd1 hd2 i hi]
  by_cases hterm : i.is_terminated = true
  · constructor <;> simp [step_sim, hterm]
  · cases hsch : cfg.get_schedule i.schedule_name with
    | none =>
      constructor <;> simp [step_sim, hterm, hsch]
    | some sched =>
      have henfi := henf i hi sched hsch
      rcases hDset i hi sched hsch with hD | hD | hD <;>
        cases hN : i.is_running <;>
        cases hsni : sched.stop_new_instances <;>
        cases hret : sched.retain_running <;>
        cases hlast : getInstanceState t i.id <;>
        constructor <;>
        simp [step_sim, pnds_sim, hterm, hsch, henfi, hD, hN, hsni, hret, hlast]

/-- The region loop does not touch backing scopes it does not process. -/
theorem account_fold_backing_frame (svc : ServiceDriver) (cfg : SchedulerConfig)
    (acct : AccountRef) :
    ∀ (rl : List String) (acc : AccBuild) (a r : String),
      ¬(a = acct.name ∧ r ∈ rl) →
      (rl.foldl (account_region_step svc cfg acct) acc).backing a r = acc.backing a r := by
  intro rl
  induction rl with
  | nil => intro acc a r _; rfl
  | cons r0 rest ih =>
    intro acc a r hx
    rw [List.foldl_cons]
    rw [ih _ a r (fun h => hx ⟨h.1, List.mem_cons_of_mem _ h.2⟩)]
    unfold account_region_step
    dsimp only
    rw [if_neg (fun h => hx ⟨h.1, by rw [h.2]; exact List.mem_cons_self _ _⟩)]

/-- After the region loop, every processed scope of the account is quiet, and
unprocessed scopes that started quiet stay quiet. -/
theorem account_fold_backing_quiet (svc : ServiceDriver) (cfg : SchedulerConfig)
    (acct : AccountRef)
    (hnd : ∀ a r, ((svc.get_schedulable_instances a r).map (fun i => i.id)).Nodup)
    (hd1 : ∀ l, svc.start_results l = l.map (fun j => (j.id, InstState.running)))
    (hd2 : ∀ l, svc.stop_results l = l.map (fun j => (j.id, InstState.stopped)))
    (henf : ∀ a r, ∀ i ∈ svc.get_schedulable_instances a r, ∀ sched,
      cfg.get_schedule i.schedule_name = some sched → sched.enforced = false)
    (hDset : ∀ a r, ∀ i ∈ svc.get_schedulable_instances a r, ∀ sched,
      cfg.get_schedule i.schedule_name = some sched →
      ((get_desired_state_and_type sched i).1 = InstState.running ∨
       (get_desired_state_and_type sched i).1 = InstState.stopped ∨
       (get_desired_state_and_type sched i).1 = InstState.anyState)) :
    ∀ (rl : List String) (acc : AccBuild) (r2 : String),
      (r2 ∈ rl ∨ QuietScope svc cfg (acc.backing acct.name r2) acct.name r2) →
      QuietScope svc cfg
        ((rl.foldl (account_region_step svc cfg acct) acc).backing acct.name r2)
        acct.name r2 := by
  intro rl
  induction rl with
  | nil =>
    intro acc r2 h
    rcases h with h | h
    · simp at h
    · exact h
  | cons r0 rest ih =>
    intro acc r2 h
    rw [List.foldl_cons]
    apply ih
    by_cases hr : r2 ∈ rest
    · exact Or.inl hr
    · right
      unfold account_region_step
      dsimp only
      by_cases hcase : acct.name = acct.name ∧ r2 = r0
      · rw [if_pos hcase]
        obtain ⟨_, he2⟩ := hcase
        subst he2
        intro i hi
        exact region_quiet svc cfg _ _ (hnd _ _) hd1 hd2 (henf _ _) (hDset _ _) i hi
      · rw [if_neg hcase]
        rcases h with h | h
        · rcases List.mem_cons.mp h with he | he
          · exact absurd ⟨rfl, he⟩ hcase
          · exact absurd he hr
        · exact h

/-- The region loop collects no output over quiet scopes. -/
theorem account_fold_empty (svc : ServiceDriver) (cfg : SchedulerConfig)
    (acct : AccountRef)
    (hnd : ∀ a r, ((svc.get_schedulable_instances a r).map (fun i => i.id)).Nodup)
    (hd1 : ∀ l, svc.start_results l = l.map (fun j => (j.id, InstState.running)))
    (hd2 : ∀ l, svc.stop_results l = l.map (fun j => (j.id, InstState.stopped)))
    (henf : ∀ a r, ∀ i ∈ svc.get_schedulable_instances a r, ∀ sched,
      cfg.get_schedule i.schedule_name = some sched → sched.enforced = false)
    (hDset : ∀ a r, ∀ i ∈ svc.get_schedulable_instances a r, ∀ sched,
      cfg.get_schedule i.schedule_name = some sched →
      ((get_desired_state_and_type sched i).1 = InstState.running ∨
       (get_desired_state_and_type sched i).1 = InstState.stopped ∨
       (get_desired_state_and_type sched i).1 = InstState.anyState)) :
    ∀ (rl : List String) (acc : AccBuild),
      (∀ r2 ∈ rl, QuietScope svc cfg (acc.backing acct.name r2) acct.name r2) →
      (rl.foldl (account_region_step svc cfg acct) acc).started = acc.started ∧
      (rl.foldl (account_region_step svc cfg acct) acc).stopped = acc.stopped ∧
      (rl.foldl (account_region_step svc cfg acct) acc).resized = acc.resized := by
  intro rl
  induction rl with
  | nil => intro acc _; exact ⟨rfl, rfl, rfl⟩
  | cons r0 rest ih =>
    intro acc hq
    rw [List.foldl_cons]
    have hout := region_out_empty svc cfg (acc.backing acct.name r0)
      (svc.get_schedulable_instances acct.name r0) (hnd _ _)
      (hq r0 (List.mem_cons_self _ _))
    have hs1 : (account_region_step svc cfg acct acc r0).started = acc.started := by
      unfold account_region_step
      dsimp only
      rw [hout.1]
      simp
    have hs2 : (account_region_step svc cfg acct acc r0).stopped = acc.stopped := by
      unfold account_region_step
      dsimp only
      rw [hout.2.1]
      simp
    have hs3 : (account_region_step svc cfg acct acc r0).resized = acc.resized := by
      unfold account_region_step
      dsimp only
      rw [hout.2.2]
      simp
    have hq2 : ∀ r2 ∈ rest,
        QuietScope svc cfg
          ((account_region_step svc cfg acct acc r0).backing acct.name r2)
          acct.name r2 := by
      intro r2 hr2
      unfold account_region_step
      dsimp only
      by_cases hcase : acct.name = acct.name ∧ r2 = r0
      · rw [if_pos hcase]
        obtain ⟨_, he2⟩ := hcase
        subst he2
        intro i hi
        exact region_quiet svc cfg _ _ (hnd _ _) hd1 hd2 (henf _ _) (hDset _ _) i hi
      · rw [if_neg hcase]
        exact hq r2 (List.mem_cons_of_mem _ hr2)
    obtain ⟨ha, hb, hc⟩ := ih _ hq2
    exact ⟨ha.trans hs1, hb.trans hs2, hc.trans hs3⟩

/-- process_account leaves backing scopes outside its account and regions
untouched. -/
theorem process_account_backing_frame (svc : ServiceDriver) (cfg : SchedulerConfig)
    (home : String) (acct : AccountRef) (backing : String → String → StateTable)
    (a r : String)
    (hx : ¬(a = acct.name ∧ r ∈ (if cfg.regions = [] then [home] else cfg.regions))) :
    (process_account svc cfg home acct backing).2 a r = backing a r := by
  unfold process_account
  dsimp only
  exact account_fold_backing_frame svc cfg acct _ _ a r hx

/-- process_account leaves every one of its processed scopes quiet. -/
theorem process_account_backing_quiet (svc : ServiceDriver) (cfg : SchedulerConfig)
    (home : String) (acct : AccountRef) (backing : String → String → StateTable)
    (hnd : ∀ a r, ((svc.get_schedulable_instances a r).map (fun i => i.id)).Nodup)
    (hd1 : ∀ l, svc.start_results l = l.map (fun j => (j.id, InstState.running)))
    (hd2 : ∀ l, svc.stop_results l = l.map (fun j => (j.id, InstState.stopped)))
    (henf : ∀ a r, ∀ i ∈ svc.get_schedulable_instances a r, ∀ sched,
      cfg.get_schedule i.schedule_name = some sched → sched.enforced = false)
    (hDset : ∀ a r, ∀ i ∈ svc.get_schedulable_instances a r, ∀ sched,
      cfg.get_schedule i.schedule_name = some sched →
      ((get_desired_state_and_type sched i).1 = InstState.running ∨
       (get_desired_state_and_type sched i).1 = InstState.stopped ∨
       (get_desired_state_and_type sched i).1 = InstState.anyState))
    (r2 : String) (hr2 : r2 ∈ (if cfg.regions = [] then [home] else cfg.regions)) :
    QuietScope svc cfg ((process_account svc cfg home acct backing).2 acct.name r2)
      acct.name r2 := by
  unfold process_account
  dsimp only
  exact account_fold_backing_quiet svc cfg acct hnd hd1 hd2 henf hDset _ _ r2 (Or.inl hr2)

/-- The result of process_account is empty over quiet scopes. -/
theorem process_account_result_empty (svc : ServiceDriver) (cfg : SchedulerConfig)
    (home : String) (acct : AccountRef) (backing : String → String → StateTable)
    (hnd : ∀ a r, ((svc.get_schedulable_instances a r).map (fun i => i.id)).Nodup)
    (hd1 : ∀ l, svc.start_results l = l.map (fun j => (j.id, InstState.running)))
    (hd2 : ∀ l, svc.stop_results l = l.map (fun j => (j.id, InstState.stopped)))
    (henf : ∀ a r, ∀ i ∈ svc.get_schedulable_instances a r, ∀ sched,
      cfg.get_schedule i.schedule_name = some sched → sched.enforced = false)
    (hDset : ∀ a r, ∀ i ∈ svc.get_schedulable_instances a r, ∀ sched,
      cfg.get_schedule i.schedule_name = some sched →
      ((get_desired_state_and_type sched i).1 = InstState.running ∨
       (get_desired_state_and_type sched i).1 = InstState.stopped ∨
       (get_desired_state_and_type sched i).1 = InstState.anyState))
    (hq : ∀ r2 ∈ (if cfg.regions = [] then [home] else cfg.regions),
      QuietScope svc cfg (backing acct.name r2) acct.name r2) :
    (process_account svc cfg home acct backing).1.started = [] ∧
    (process_account svc cfg home acct backing).1.stopped = [] ∧
    ((process_account svc cfg home acct backing).1.resized = none ∨
     (process_account svc cfg home acct backing).1.resized = some []) := by
  unfold process_account
  dsimp only
  obtain ⟨ha, hb, hc⟩ := account_fold_empty svc cfg acct hnd hd1 hd2 henf hDset
    (if cfg.regions = [] then [home] else cfg.regions)
    { started := [], stopped := [], resized := [], backing := backing } hq
  refine ⟨ha, hb, ?_⟩
  by_cases hres : svc.allow_resize = true
  · rw [if_pos hres]
    right
    rw [hc]
  · rw [if_neg hres]
    left
    rfl

/-- After the account loop, every scope belonging to a processed account and
a configured region is quiet, and scopes that started quiet stay quiet. -/
theorem run_fold_backing_quiet (svc : ServiceDriver) (cfg : SchedulerConfig)
    (home : String)
    (hnd : ∀ a r, ((svc.get_schedulable_instances a r).map (fun i => i.id)).Nodup)
    (hd1 : ∀ l, svc.start_results l = l.map (fun j => (j.id, InstState.running)))
    (hd2 : ∀ l, svc.stop_results l = l.map (fun j => (j.id, InstState.stopped)))
    (henf : ∀ a r, ∀ i ∈ svc.get_schedulable_instances a r, ∀ sched,
      cfg.get_schedule i.schedule_name = some sched → sched.enforced = false)
    (hDset : ∀ a r, ∀ i ∈ svc.get_schedulable_instances a r, ∀ sched,
      cfg.get_schedule i.schedule_name = some sched →
      ((get_desired_state_and_type sched i).1 = InstState.running ∨
       (get_desired_state_and_type sched i).1 = InstState.stopped ∨
       (get_desired_state_and_type sched i).1 = InstState.anyState)) :
    ∀ (l : List AccountRef)
      (init : List (String × AccountResult) × (String → String → StateTable))
      (a r2 : String),
      (((∃ acct ∈ l, a = acct.name) ∧
          r2 ∈ (if cfg.regions = [] then [home] else cfg.regions)) ∨
        QuietScope svc cfg (init.2 a r2) a r2) →
      QuietScope svc cfg ((l.foldl (run_account_step svc cfg home) init).2 a r2) a r2 := by
  intro l
  induction l with
  | nil =>
    intro init a r2 h
    rcases h with ⟨⟨acct, hacct, _⟩, _⟩ | h
    · simp at hacct
    · exact h
  | cons acct rest ih =>
    intro init a r2 h
    rw [List.foldl_cons]
    apply ih
    by_cases hrest : (∃ acct2 ∈ rest, a = acct2.name) ∧
        r2 ∈ (if cfg.regions = [] then [home] else cfg.regions)
    · exact Or.inl hrest
    · right
      unfold run_account_step
      dsimp only
      by_cases hcase : a = acct.name ∧
          r2 ∈ (if cfg.regions = [] then [home] else cfg.regions)
      · obtain ⟨he, hr⟩ := hcase
        subst he
        exact process_account_backing_quiet svc cfg home acct init.2
          hnd hd1 hd2 henf hDset r2 hr
      · rw [process_account_backing_frame svc cfg home acct init.2 a r2 hcase]
        rcases h with ⟨⟨acct2, hacct2, he⟩, hr⟩ | h
        · rcases List.mem_cons.mp hacct2 with he2 | he2
          · exact absurd ⟨by rw [he, he2], hr⟩ hcase
          · exact absurd ⟨⟨acct2, he2, he⟩, hr⟩ hrest
        · exact h

/-- The account loop appends only empty results over quiet scopes. -/
theorem run_fold_results_empty (svc : ServiceDriver) (cfg : SchedulerConfig)
    (home : String)
    (hnd : ∀ a r, ((svc.get_schedulable_instances a r).map (fun i => i.id)).Nodup)
    (hd1 : ∀ l, svc.start_results l = l.map (fun j => (j.id, InstState.running)))
    (hd2 : ∀ l, svc.stop_results l = l.map (fun j => (j.id, InstState.stopped)))
    (henf : ∀ a r, ∀ i ∈ svc.get_schedulable_instances a r, ∀ sched,
      cfg.get_schedule i.schedule_name = some sched → sched.enforced = false)
    (hDset : ∀ a r, ∀ i ∈ svc.get_schedulable_instances a r, ∀ sched,
      cfg.get_schedule i.schedule_name = some sched →
      ((get_desired_state_and_type sched i).1 = InstState.running ∨
       (get_desired_state_and_type sched i).1 = InstState.stopped ∨
       (get_desired_state_and_type sched i).1 = InstState.anyState)) :
    ∀ (l : List AccountRef)
      (init : List (String × AccountResult) × (String → String → StateTable)),
      (∀ acct ∈ l, ∀ r2 ∈ (if cfg.regions = [] then [home] else cfg.regions),
        QuietScope svc cfg (init.2 acct.name r2) acct.name r2) →
      ∀ pr ∈ (l.foldl (run_account_step svc cfg home) init).1,
        pr ∈ init.1 ∨
        (pr.2.started = [] ∧ pr.2.stopped = [] ∧
          (pr.2.resized = none ∨ pr.2.resized = some [])) := by
  intro l
  induction l with
  | nil =>
    intro init _ pr hpr
    exact Or.inl hpr
  | cons acct rest ih =>
    intro init hq pr hpr
    rw [List.foldl_cons] at hpr
    have hres := process_account_result_empty svc cfg home acct init.2
      hnd hd1 hd2 henf hDset (hq acct (List.mem_cons_self _ _))
    have hq2 : ∀ acct2 ∈ rest, ∀ r2 ∈ (if cfg.regions = [] then [home] else cfg.regions),
        QuietScope svc cfg ((run_account_step svc cfg home init acct).2 acct2.name r2)
          acct2.name r2 := by
      intro acct2 hacct2 r2 hr2
      unfold run_account_step
      dsimp only
      by_cases hcase : acct2.name = acct.name ∧
          r2 ∈ (if cfg.regions = [] then [home] else cfg.regions)
      · obtain ⟨he, hr⟩ := hcase
        rw [he]
        exact process_account_backing_quiet svc cfg home acct init.2
          hnd hd1 hd2 henf hDset r2 hr
      · rw [process_account_backing_frame svc cfg home acct init.2 acct2.name r2 hcase]
        exact hq acct2 (List.mem_cons_of_mem _ hacct2) r2 hr2
    rcases ih (run_account_step svc cfg home init acct) hq2 pr hpr with hin | hempty
    · unfold run_account_step at hin
      dsimp only at hin
      rcases List.mem_append.mp hin with h1 | h1
      · exact Or.inl h1
      · right
        rw [List.mem_singleton.mp h1]
        exact ⟨hres.1, hres.2.1, hres.2.2⟩
    · exact Or.inr hempty

/-- C5 amended: running the engine twice in succession with unchanged
configuration, carried-over state and unchanged driver responses yields an
empty action set on the second run - provided all schedules in use are
non-enforced, schedule evaluation yields only running, stopped or any (and
in particular never stopped_for_resize), the driver yields each id at most
once per region, and the driver reports each started instance as running and
each stopped instance as stopped. The counterexample shows the unrestricted
claim fails for enforced schedules. -/
theorem C5_second_run_actions_empty (svc : ServiceDriver) (cfg : SchedulerConfig)
    (lam : String) (sts : String → String → AssumeResult) (home : String)
    (backing : String → String → StateTable)
    (hnd : ∀ a r, ((svc.get_schedulable_instances a r).map (fun i => i.id)).Nodup)
    (hd1 : ∀ l, svc.start_results l = l.map (fun j => (j.id, InstState.running)))
    (hd2 : ∀ l, svc.stop_results l = l.map (fun j => (j.id, InstState.stopped)))
    (henf : ∀ a r, ∀ i ∈ svc.get_schedulable_instances a r, ∀ sched,
      cfg.get_schedule i.schedule_name = some sched → sched.enforced = false)
    (hDset : ∀ a r, ∀ i ∈ svc.get_schedulable_instances a r, ∀ sched,
      cfg.get_schedule i.schedule_name = some sched →
      ((get_desired_state_and_type sched i).1 = InstState.running ∨
       (get_desired_state_and_type sched i).1 = InstState.stopped ∨
       (get_desired_state_and_type sched i).1 = InstState.anyState)) :
    ∀ pr ∈ (run svc cfg lam sts home (run svc cfg lam sts home backing).2.1).1,
      pr.2.started = [] ∧ pr.2.stopped = [] ∧
        (pr.2.resized = none ∨ pr.2.resized = some []) := by
  intro pr hpr
  have hq1 : ∀ acct ∈ (accounts_gen cfg lam sts).1,
      ∀ r2 ∈ (if cfg.regions = [] then [home] else cfg.regions),
      QuietScope svc cfg ((run svc cfg lam sts home backing).2.1 acct.name r2)
        acct.name r2 := by
    intro acct hacct r2 hr2
    exact run_fold_backing_quiet svc cfg home hnd hd1 hd2 henf hDset
      (accounts_gen cfg lam sts).1 ([], backing) acct.name r2
      (Or.inl ⟨⟨acct, hacct, rfl⟩, hr2⟩)
  have key := run_fold_results_empty svc cfg home hnd hd1 hd2 henf hDset
    (accounts_gen cfg lam sts).1 ([], (run svc cfg lam sts home backing).2.1)
    (fun acct hacct r2 hr2 => hq1 acct hacct r2 hr2) pr hpr
  rcases key with hin | he
  · simp at hin
  · exact he

/-- Counterexample for C5 as stated: with an enforced schedule and unchanged
driver responses, the second run starts the instance again, so the second
action set is not empty. -/
theorem C5_counterexample_enforced_restarts :
    (run exSvcC5 exCfgC5 "111" (fun _ _ => AssumeResult.ok) "r1"
        (run exSvcC5 exCfgC5 "111" (fun _ _ => AssumeResult.ok) "r1"
          (fun _ _ => [])).2.1).1
      = [("111",
          { started := [("r1", [("i-c5", "sch5e")])]
            stopped := []
            resized := none })] := by
  decide

/-- Witness for C5: the non-enforced sch3 fixture satisfies all hypotheses and
its second-run response entry is empty. -/
theorem C5_second_run_actions_empty_witness :
    (("111", ({ started := [], stopped := [], resized := some [] } : AccountResult))
        : String × AccountResult).2.started = [] ∧
    (("111", ({ started := [], stopped := [], resized := some [] } : AccountResult))
        : String × AccountResult).2.stopped = [] ∧
    ((("111", ({ started := [], stopped := [], resized := some [] } : AccountResult))
        : String × AccountResult).2.resized = none ∨
     (("111", ({ started := [], stopped := [], resized := some [] } : AccountResult))
        : String × AccountResult).2.resized = some []) :=
  C5_second_run_actions_empty exSvcC3 exCfgC3 "111" (fun _ _ => AssumeResult.ok) "r1"
    (fun _ _ => [])
    (by
      intro a r
      show ([exInstC3].map (fun i => i.id)).Nodup
      decide)
    (fun _ => rfl)
    (fun _ => rfl)
    (by
      intro a r i hi sched hsch
      have hi2 : i = exInstC3 := by simpa [exSvcC3] using hi
      subst hi2
      rw [show exCfgC3.get_schedule exInstC3.schedule_name = some exSchedC3 from rfl] at hsch
      injection hsch with hs2
      subst hs2
      rfl)
    (by
      intro a r i hi sched hsch
      have hi2 : i = exInstC3 := by simpa [exSvcC3] using hi
      subst hi2
      rw [show exCfgC3.get_schedule exInstC3.schedule_name = some exSchedC3 from rfl] at hsch
      injection hsch with hs2
      subst hs2
      exact Or.inr (Or.inl rfl))
    ("111", { started := [], stopped := [], resized := some [] })
    (by decide)

end Scheduler
